import Mathlib

/-!
# WinAPIResolver: a shallow embedding of `APIResolver.cpp`

The resolver keeps five file-scope globals, reads operating-system memory (the
environment block, the loader's module list, the export directory of the mapped
`ntdll` image), writes handles into a caller-owned array of `MODULE_INF` records
and calls one native loader primitive through a function pointer.

Embedding conventions.

* Pointers and handles are natural numbers, `0` is `nullptr`.  Pointer arithmetic
  is taken modulo the size of the address space (`ptrMod`).
* Operating-system memory is a typed view (`Memory`): one accessor per structure
  field the source reads, keyed by the address of the structure, plus raw `DWORD`,
  `WORD` and string reads.  Reads are total.
* A string pointer that the source dereferences without a null check is modelled
  by the string it points to; a string pointer that the source compares with
  `nullptr` is an `Option String`.
* Caller arrays are a heap `modules arr i`, the record `arr[i]`.
* Every operation threads a `Machine` (globals, memory, caller heap) that also
  carries a ghost `trace` of the calls and memory accesses performed.
* The `while` loop of the module walk is bounded by a fuel argument and returns
  `none` when the fuel runs out; the counted `for` loops recurse on the number of
  remaining iterations.
-/

namespace WinAPIResolver

/-! ## Constants and helpers of the headers -/

/-- Modelled from the spec: the enumeration `WAPI_RSOLVER_STATUS` of the absent header
`APIResolver.h`; the enumerators are the seven status names the closed set of §6
lists, six of which `APIResolver.cpp` returns by name. -/
inductive WAPI_RSOLVER_STATUS where
  | SUCCESS
  | ERROR_INVALID_PARAM
  | ERROR_NTDLL_HANDLE
  | ERROR_FIND_LDRLOADDLL
  | ERROR_FIND_LDRGETPROCEDUREADDRESS
  | ERROR_INVALID_LIB_NAME
  | ERROR_LOAD_LIB
  deriving DecidableEq

/-- Modelled from the spec: the macro `WAPI_SUCCESS` of the absent header
`APIResolver.h`; the state is committed "only on full success". -/
def WAPI_SUCCESS (status : WAPI_RSOLVER_STATUS) : Bool :=
  decide (status = WAPI_RSOLVER_STATUS.SUCCESS)

/-- Modelled from the spec: the helper `compareString` of the absent header
`APIResolverUtils.h`, a "case-sensitive equality comparison" of two strings. -/
def compareString (str1 str2 : String) : Bool :=
  decide (str1 = str2)

/-- The value `IMAGE_DOS_SIGNATURE` ("MZ") of the platform headers. -/
def IMAGE_DOS_SIGNATURE : Nat := 0x5A4D

/-- The value `IMAGE_NT_SIGNATURE` ("PE\0\0") of the platform headers. -/
def IMAGE_NT_SIGNATURE : Nat := 0x00004550

/-- The value `IMAGE_FILE_DLL` of the platform headers. -/
def IMAGE_FILE_DLL : Nat := 0x2000

/-- The value `IMAGE_DIRECTORY_ENTRY_EXPORT` of the platform headers. -/
def IMAGE_DIRECTORY_ENTRY_EXPORT : Nat := 0

/-- The value `STATUS_SUCCESS` of the platform headers. -/
def STATUS_SUCCESS : Nat := 0

/-- The constant `STR_NTDLL`. -/
def STR_NTDLL : String := "ntdll.dll"

/-- The constant `STR_LDRLOADDLL`. -/
def STR_LDRLOADDLL : String := "LdrLoadDll"

/-- The constant `STR_LDRGETPROCEDUREADDRESS`. -/
def STR_LDRGETPROCEDUREADDRESS : String := "LdrGetProcedureAddress"

/-! ## Memory -/

/-- Typed view of the operating-system memory the resolver reads.  Each accessor
takes the address of the structure it reads from.  The image headers are those of the
platform; the environment block, the loader data and the module-list node are declared in
the absent header `APIResolver.h` and appear here through the fields the source reads. -/
structure Memory where
  /-- Whether the target is the `_WIN64` one. -/
  win64 : Bool
  /-- The intrinsic `__readgsqword` / `__readfsdword` at an offset. -/
  readSegment : Nat → Nat
  /-- Field `Ldr` of the environment block. -/
  Ldr : Nat → Nat
  /-- Field `ModuleListLoadOrder.Flink` of the loader data. -/
  ModuleListLoadOrder_Flink : Nat → Nat
  /-- Field `BaseAddress` of a module-list node. -/
  BaseAddress : Nat → Nat
  /-- The wide string at `BaseDllName.Buffer` of a module-list node. -/
  BaseDllName_Buffer : Nat → String
  /-- Field `InLoadOrderModuleList.Flink` of a module-list node. -/
  InLoadOrderModuleList_Flink : Nat → Nat
  /-- Field `e_magic` of an `IMAGE_DOS_HEADER`. -/
  e_magic : Nat → Nat
  /-- Field `e_lfanew` (a signed `LONG`) of an `IMAGE_DOS_HEADER`. -/
  e_lfanew : Nat → Int
  /-- Field `Signature` of an `IMAGE_NT_HEADERS`. -/
  Signature : Nat → Nat
  /-- Field `FileHeader.Characteristics` of an `IMAGE_NT_HEADERS`. -/
  Characteristics : Nat → Nat
  /-- Field `OptionalHeader.DataDirectory[k].VirtualAddress` of an `IMAGE_NT_HEADERS`. -/
  DataDirectory_VirtualAddress : Nat → Nat → Nat
  /-- Field `OptionalHeader.DataDirectory[k].Size` of an `IMAGE_NT_HEADERS`. -/
  DataDirectory_Size : Nat → Nat → Nat
  /-- Field `NumberOfFunctions` of an `IMAGE_EXPORT_DIRECTORY`. -/
  NumberOfFunctions : Nat → Nat
  /-- Field `NumberOfNames` of an `IMAGE_EXPORT_DIRECTORY`. -/
  NumberOfNames : Nat → Nat
  /-- Field `AddressOfFunctions` of an `IMAGE_EXPORT_DIRECTORY`. -/
  AddressOfFunctions : Nat → Nat
  /-- Field `AddressOfNames` of an `IMAGE_EXPORT_DIRECTORY`. -/
  AddressOfNames : Nat → Nat
  /-- Field `AddressOfNameOrdinals` of an `IMAGE_EXPORT_DIRECTORY`. -/
  AddressOfNameOrdinals : Nat → Nat
  /-- The `DWORD` stored at an address. -/
  dword : Nat → Nat
  /-- The `WORD` stored at an address. -/
  word : Nat → Nat
  /-- The narrow NUL-terminated string stored at an address. -/
  cstr : Nat → String

/-- The constant `PEB_OFFSET`: `0x60` under `_WIN64`, `0x30` otherwise. -/
def PEB_OFFSET (mem : Memory) : Nat :=
  if mem.win64 then 0x60 else 0x30

/-- Size of the address space: pointers are 64 bits wide under `_WIN64`, 32 otherwise. -/
def ptrMod (mem : Memory) : Nat :=
  if mem.win64 then 2 ^ 64 else 2 ^ 32

/-- Pointer plus unsigned byte offset. -/
def ptrAdd (mem : Memory) (p off : Nat) : Nat :=
  (p + off) % ptrMod mem

/-- Pointer plus signed byte offset. -/
def ptrAddSigned (mem : Memory) (p : Nat) (off : Int) : Nat :=
  (((p : Int) + off) % ((ptrMod mem : Nat) : Int)).toNat

/-! ## Caller records, native primitives, machine state -/

/-- Modelled from the spec: the caller-owned record `MODULE_INF` of the absent header
`APIResolver.h`, with the three fields the source uses: the module name, the validity flag
precomputed by the caller, and the resulting module handle. -/
structure MODULE_INF where
  moduleName : String
  invalidName : Bool
  hLib : Nat
  deriving DecidableEq

/-- The length-prefixed wide string handed to the native loader. -/
structure UNICODE_STRING where
  Length : Nat
  MaximumLength : Nat
  Buffer : String
  deriving DecidableEq

/-- What the resolver does not define itself: the helper `stringSize` of the absent
header `APIResolverUtils.h`, and the effect of calling the native code behind the
pointer `pLdrLoadDll`.  The native call may change the operating-system memory in any
way; it leaves the resolver globals and the caller arrays alone. -/
structure Env where
  /-- The helper `stringSize` applied to a wide string. -/
  stringSize : String → Nat
  /-- Calling through the function pointer `fn` with a null path, flags `0` and the
  given name: the returned `NTSTATUS`, the value left in the output handle, and the
  memory after the call. -/
  LdrLoadDll : (fn : Nat) → UNICODE_STRING → Memory → Nat × Nat × Memory

/-- Ghost events: the calls and memory accesses a run performs. -/
inductive Event where
  /-- Entry into `getHandleNtDll`. -/
  | moduleWalk
  /-- Read of the field `BaseAddress` of a node. -/
  | nodeBaseAddress (node : Nat)
  /-- Examination of the name `BaseDllName` of a node. -/
  | nodeBaseDllName (node : Nat)
  /-- Read of the forward link of a node. -/
  | nodeFlink (node : Nat)
  /-- Entry into `getFuncAddrFromNtdll`. -/
  | exportLookup (functionName : Option String)
  /-- Read of a field of `arr[i]`. -/
  | entryRead (arr i : Nat)
  /-- Write of the field `hLib` of `arr[i]`. -/
  | entryWrite (arr i : Nat)
  /-- Call of the native primitive behind `pLdrLoadDll` for a name. -/
  | ldrLoadDll (dllName : String)
  deriving DecidableEq

/-- The five globals of `APIResolver.cpp`, the memory, the caller heap and the ghost trace. -/
structure Machine where
  pLdrGetProcedureAddress : Nat
  pLdrLoadDll : Nat
  hNtdll : Nat
  arrModuleInf : Nat
  countModules : Nat
  mem : Memory
  modules : Nat → Nat → MODULE_INF
  trace : List Event

/-! ## `getFuncAddrFromNtdll` -/

/-- The `for` loop of `getFuncAddrFromNtdll`, at index `i` with `remaining` iterations left. -/
def searchExportNames (mem : Memory) (imageBase exportNames ordinals functions : Nat)
    (functionName : String) : (remaining : Nat) → (i : Nat) → Nat
  | 0, _ => 0
  | remaining + 1, i =>
    let currentFuncName := ptrAdd mem imageBase (mem.dword (ptrAdd mem exportNames (4 * i)))
    if compareString (mem.cstr currentFuncName) functionName then
      let itemIdx := mem.word (ptrAdd mem ordinals (2 * i))
      ptrAdd mem imageBase (mem.dword (ptrAdd mem functions (4 * itemIdx)))
    else
      searchExportNames mem imageBase exportNames ordinals functions functionName remaining (i + 1)

/-- The body of `getFuncAddrFromNtdll` over the memory and the global `hNtdll`. -/
def exportLookup (mem : Memory) (hNtdll : Nat) (functionName : Option String) : Nat :=
  match functionName with
  | none => 0
  | some name =>
    let imgDosHeader := hNtdll
    if mem.e_magic imgDosHeader ≠ IMAGE_DOS_SIGNATURE then 0
    else
      let imageBase := imgDosHeader
      let imgNtheader := ptrAddSigned mem imageBase (mem.e_lfanew imgDosHeader)
      if mem.Signature imgNtheader ≠ IMAGE_NT_SIGNATURE then 0
      else if (mem.Characteristics imgNtheader &&& IMAGE_FILE_DLL) = 0
          ∨ mem.DataDirectory_VirtualAddress imgNtheader IMAGE_DIRECTORY_ENTRY_EXPORT = 0
          ∨ mem.DataDirectory_Size imgNtheader IMAGE_DIRECTORY_ENTRY_EXPORT = 0 then 0
      else
        let exportSection := ptrAdd mem imageBase
          (mem.DataDirectory_VirtualAddress imgNtheader IMAGE_DIRECTORY_ENTRY_EXPORT)
        if exportSection = 0 ∨ mem.NumberOfFunctions exportSection = 0 then 0
        else
          let exportNames := ptrAdd mem imageBase (mem.AddressOfNames exportSection)
          if exportNames = 0 then 0
          else
            let ordinals := ptrAdd mem imageBase (mem.AddressOfNameOrdinals exportSection)
            if ordinals = 0 then 0
            else
              let functions := ptrAdd mem imageBase (mem.AddressOfFunctions exportSection)
              if functions = 0 then 0
              else
                searchExportNames mem imageBase exportNames ordinals functions name
                  (mem.NumberOfNames exportSection) 0

/-- The function `getFuncAddrFromNtdll`: the returned address (`0` is `nullptr`)
and the machine after the call. -/
def getFuncAddrFromNtdll (m : Machine) (functionName : Option String) : Nat × Machine :=
  (exportLookup m.mem m.hNtdll functionName,
    { m with trace := m.trace ++ [Event.exportLookup functionName] })

/-! ### The export directory as the headers declare it -/

/-- Address of the `IMAGE_NT_HEADERS` of the image at `base`. -/
def ntHeadersOf (mem : Memory) (base : Nat) : Nat :=
  ptrAddSigned mem base (mem.e_lfanew base)

/-- Address of the export directory of the image at `base`. -/
def exportDirectoryOf (mem : Memory) (base : Nat) : Nat :=
  ptrAdd mem base (mem.DataDirectory_VirtualAddress (ntHeadersOf mem base) IMAGE_DIRECTORY_ENTRY_EXPORT)

/-- Address of the table of name offsets. -/
def namesTableOf (mem : Memory) (base : Nat) : Nat :=
  ptrAdd mem base (mem.AddressOfNames (exportDirectoryOf mem base))

/-- Address of the table of ordinals. -/
def ordinalsTableOf (mem : Memory) (base : Nat) : Nat :=
  ptrAdd mem base (mem.AddressOfNameOrdinals (exportDirectoryOf mem base))

/-- Address of the table of entry-point offsets. -/
def functionsTableOf (mem : Memory) (base : Nat) : Nat :=
  ptrAdd mem base (mem.AddressOfFunctions (exportDirectoryOf mem base))

/-- The number of declared names. -/
def declaredCount (mem : Memory) (base : Nat) : Nat :=
  mem.NumberOfNames (exportDirectoryOf mem base)

/-- The `i`-th declared export name. -/
def declaredName (mem : Memory) (base i : Nat) : String :=
  mem.cstr (ptrAdd mem base (mem.dword (ptrAdd mem (namesTableOf mem base) (4 * i))))

/-- The entry-point offset `functions[ordinals[i]]` declared for the `i`-th name. -/
def declaredOffset (mem : Memory) (base i : Nat) : Nat :=
  mem.dword (ptrAdd mem (functionsTableOf mem base)
    (4 * mem.word (ptrAdd mem (ordinalsTableOf mem base) (2 * i))))

/-- The export directory and its three tables of a mapped image lie at real
addresses: none of the four pointers the source derives from the base and compares with
`nullptr` is null.  This holds whenever the base is non-null and no sum of the base and a
header offset wraps (`exportTablesMapped_of_no_wrap`). -/
def ExportTablesMapped (mem : Memory) (base : Nat) : Prop :=
  exportDirectoryOf mem base ≠ 0 ∧ namesTableOf mem base ≠ 0
    ∧ ordinalsTableOf mem base ≠ 0 ∧ functionsTableOf mem base ≠ 0

/-! ## `getHandleNtDll` -/

/-- The `while` loop of `getHandleNtDll` at the node `ModuleList`; `fuel` bounds the
number of times the loop condition is evaluated. -/
def walkModuleList (mem : Memory) : (fuel : Nat) → (ModuleList : Nat) → List Event →
    Option (Nat × List Event)
  | 0, _, _ => none
  | fuel + 1, ModuleList, trace =>
    let trace := trace ++ [Event.nodeBaseAddress ModuleList]
    if mem.BaseAddress ModuleList = 0 then some (0, trace)
    else
      let trace := trace ++ [Event.nodeBaseDllName ModuleList]
      if compareString (mem.BaseDllName_Buffer ModuleList) STR_NTDLL then
        some (mem.BaseAddress ModuleList, trace)
      else
        walkModuleList mem fuel (mem.InLoadOrderModuleList_Flink ModuleList)
          (trace ++ [Event.nodeFlink ModuleList])

/-- The function `getHandleNtDll`: `none` when the fuel runs out inside the walk. -/
def getHandleNtDll (fuel : Nat) (m : Machine) : Option (Nat × Machine) :=
  let trace := m.trace ++ [Event.moduleWalk]
  let ptrPeb := m.mem.readSegment (PEB_OFFSET m.mem)
  if ptrPeb ≠ 0 then
    let ProcessModule := m.mem.Ldr ptrPeb
    let ModuleList := m.mem.ModuleListLoadOrder_Flink ProcessModule
    match walkModuleList m.mem fuel ModuleList trace with
    | none => none
    | some r => some (r.1, { m with trace := r.2 })
  else
    some (0, { m with trace := trace })

/-! ## `loadLibrary`, `loadModules`, `getHandleModuleByName` -/

/-- The function `loadLibrary`. -/
def loadLibrary (env : Env) (m : Machine) (dllName : Option String) : Nat × Machine :=
  match dllName with
  | none => (0, m)
  | some name =>
    let dllNameSize := env.stringSize name
    let UnicodeDllName : UNICODE_STRING :=
      { Buffer := name
        Length := dllNameSize % 2 ^ 16
        MaximumLength := (dllNameSize + 2) % 2 ^ 16 }
    let r := env.LdrLoadDll m.pLdrLoadDll UnicodeDllName m.mem
    let m1 : Machine := { m with mem := r.2.2, trace := m.trace ++ [Event.ldrLoadDll name] }
    if r.1 = STATUS_SUCCESS then (r.2.1, m1) else (0, m1)

/-- The assignment `pModuleInfArr[i].hLib = h`. -/
def writeHLib (m : Machine) (pModuleInfArr i h : Nat) : Machine :=
  { m with
    modules := fun arr j =>
      if arr = pModuleInfArr ∧ j = i then { m.modules arr j with hLib := h } else m.modules arr j
    trace := m.trace ++ [Event.entryWrite pModuleInfArr i] }

/-- The `for` loop of `loadModules`, at index `i` with `remaining` iterations left. -/
def loadModulesLoop (env : Env) (pModuleInfArr : Nat) :
    (remaining : Nat) → (i : Nat) → Machine → WAPI_RSOLVER_STATUS × Machine
  | 0, _, m => (WAPI_RSOLVER_STATUS.SUCCESS, m)
  | remaining + 1, i, m =>
    let m1 : Machine := { m with trace := m.trace ++ [Event.entryRead pModuleInfArr i] }
    if (m1.modules pModuleInfArr i).invalidName then
      (WAPI_RSOLVER_STATUS.ERROR_INVALID_LIB_NAME, m1)
    else
      let r := loadLibrary env m1 (some (m1.modules pModuleInfArr i).moduleName)
      let m2 := writeHLib r.2 pModuleInfArr i r.1
      if (m2.modules pModuleInfArr i).hLib = 0 then
        (WAPI_RSOLVER_STATUS.ERROR_LOAD_LIB, m2)
      else
        loadModulesLoop env pModuleInfArr remaining (i + 1) m2

/-- The function `loadModules`. -/
def loadModules (env : Env) (m : Machine) (pModuleInfArr count : Nat) :
    WAPI_RSOLVER_STATUS × Machine :=
  loadModulesLoop env pModuleInfArr count 0 m

/-- The `for` loop of `getHandleModuleByName`, at index `i` with `remaining` iterations left. -/
def getHandleModuleByNameLoop (dllName : String) :
    (remaining : Nat) → (i : Nat) → Machine → Nat × Machine
  | 0, _, m => (0, m)
  | remaining + 1, i, m =>
    let m1 : Machine := { m with trace := m.trace ++ [Event.entryRead m.arrModuleInf i] }
    if compareString (m1.modules m1.arrModuleInf i).moduleName dllName then
      ((m1.modules m1.arrModuleInf i).hLib, m1)
    else
      getHandleModuleByNameLoop dllName remaining (i + 1) m1

/-- The function `getHandleModuleByName`. -/
def getHandleModuleByName (m : Machine) (dllName : String) : Nat × Machine :=
  getHandleModuleByNameLoop dllName m.countModules 0 m

/-! ## `init` -/

/-- The function `init`: `none` when the fuel runs out inside the module walk. -/
def init (env : Env) (fuel : Nat) (m : Machine) (pModuleInfArr count : Nat) :
    Option (WAPI_RSOLVER_STATUS × Machine) :=
  if pModuleInfArr = 0 ∨ count = 0 then
    some (WAPI_RSOLVER_STATUS.ERROR_INVALID_PARAM, m)
  else
    match getHandleNtDll fuel m with
    | none => none
    | some r1 =>
      let m1 : Machine := { r1.2 with hNtdll := r1.1 }
      if m1.hNtdll = 0 then
        some (WAPI_RSOLVER_STATUS.ERROR_NTDLL_HANDLE, m1)
      else
        let r2 := getFuncAddrFromNtdll m1 (some STR_LDRLOADDLL)
        let m2 : Machine := { r2.2 with pLdrLoadDll := r2.1 }
        if m2.pLdrLoadDll = 0 then
          some (WAPI_RSOLVER_STATUS.ERROR_FIND_LDRLOADDLL, m2)
        else
          let r3 := getFuncAddrFromNtdll m2 (some STR_LDRGETPROCEDUREADDRESS)
          let m3 : Machine := { r3.2 with pLdrGetProcedureAddress := r3.1 }
          if m3.pLdrGetProcedureAddress = 0 then
            some (WAPI_RSOLVER_STATUS.ERROR_FIND_LDRGETPROCEDUREADDRESS, m3)
          else
            let r4 := loadModules env m3 pModuleInfArr count
            if WAPI_SUCCESS r4.1 then
              some (r4.1, { r4.2 with arrModuleInf := pModuleInfArr, countModules := count })
            else
              some (r4.1, r4.2)

/-! ## Specification-side notions -/

/-- The loader's module list as the walk sees it: following forward links from `first`
visits exactly the addresses `nodes`, in order, and then reaches `sentinel`. -/
def IsForwardChain (mem : Memory) : Nat → List Nat → Nat → Prop
  | first, [], sentinel => first = sentinel
  | first, a :: rest, sentinel =>
    first = a ∧ IsForwardChain mem (mem.InLoadOrderModuleList_Flink a) rest sentinel

/-- A loaded-module list of finitely many entries with non-null base address followed
by a sentinel entry with null base address. -/
def LoadedModuleList (mem : Memory) (first : Nat) (nodes : List Nat) (sentinel : Nat) : Prop :=
  IsForwardChain mem first nodes sentinel
    ∧ (∀ a ∈ nodes, mem.BaseAddress a ≠ 0)
    ∧ mem.BaseAddress sentinel = 0

/-- The node the walk starts from. -/
def firstNode (mem : Memory) : Nat :=
  mem.ModuleListLoadOrder_Flink (mem.Ldr (mem.readSegment (PEB_OFFSET mem)))

/-- Whether the recorded module name of a node is the name of the foundational library. -/
def isNtdllNode (mem : Memory) (node : Nat) : Bool :=
  decide (mem.BaseDllName_Buffer node = "ntdll.dll")

/-- The nodes whose name a run examined, in order. -/
def namesExamined (trace : List Event) : List Nat :=
  trace.filterMap (fun e => match e with
    | Event.nodeBaseDllName node => some node
    | _ => none)

/-- The nodes whose forward link a run followed, in order. -/
def linksFollowed (trace : List Event) : List Nat :=
  trace.filterMap (fun e => match e with
    | Event.nodeFlink node => some node
    | _ => none)

/-- The names the native loader primitive was called for, in order. -/
def loadCalls (trace : List Event) : List String :=
  trace.filterMap (fun e => match e with
    | Event.ldrLoadDll dllName => some dllName
    | _ => none)

/-- The indices of the entries of the array `arr` a run read or wrote, in order. -/
def entriesTouched (arr : Nat) (trace : List Event) : List Nat :=
  trace.filterMap (fun e => match e with
    | Event.entryRead a i => if a = arr then some i else none
    | Event.entryWrite a i => if a = arr then some i else none
    | _ => none)

/-- The memory as it stands when `loadModules` reaches index `j`, every earlier entry
of `arr` having been handed to `loadLibrary` in index order. -/
def memoryAtEntry (env : Env) (m : Machine) (arr : Nat) : Nat → Memory
  | 0 => m.mem
  | j + 1 =>
    (loadLibrary env { m with mem := memoryAtEntry env m arr j }
      (some (m.modules arr j).moduleName)).2.mem

/-- The handle `loadLibrary` returns for the name of entry `j` when `loadModules`
reaches it. -/
def handleForEntry (env : Env) (m : Machine) (arr j : Nat) : Nat :=
  (loadLibrary env { m with mem := memoryAtEntry env m arr j }
    (some (m.modules arr j).moduleName)).1

/-- Entry `j` stops `loadModules`: its `invalidName` flag is set, or `loadLibrary`
returns a zero handle for its name. -/
def StopsAt (env : Env) (m : Machine) (arr j : Nat) : Prop :=
  (m.modules arr j).invalidName = true ∨ handleForEntry env m arr j = 0

/-- The machine after the body of the `loadModules` loop has read entry `i`, called
`loadLibrary` for its name and written the handle back. -/
def afterEntry (env : Env) (arr i : Nat) (mi : Machine) : Machine :=
  writeHLib
    (loadLibrary env { mi with trace := mi.trace ++ [Event.entryRead arr i] }
      (some (mi.modules arr i).moduleName)).2
    arr i
    (loadLibrary env { mi with trace := mi.trace ++ [Event.entryRead arr i] }
      (some (mi.modules arr i).moduleName)).1

/-- Loop invariant of `loadModules` started on the machine `m`: the machine `mi` with
which the loop reaches index `i`. -/
structure LoadedUpTo (env : Env) (m : Machine) (arr i : Nat) (mi : Machine) : Prop where
  mem_eq : mi.mem = memoryAtEntry env m arr i
  ldr_eq : mi.pLdrLoadDll = m.pLdrLoadDll
  name_eq : ∀ a j, (mi.modules a j).moduleName = (m.modules a j).moduleName
  flag_eq : ∀ a j, (mi.modules a j).invalidName = (m.modules a j).invalidName
  rest_eq : ∀ a j, a ≠ arr ∨ i ≤ j → mi.modules a j = m.modules a j
  done_eq : ∀ j, j < i →
    (mi.modules arr j).hLib = handleForEntry env m arr j ∧ handleForEntry env m arr j ≠ 0
  valid_eq : ∀ j, j < i → (m.modules arr j).invalidName = false
  trace_eq : ∃ new, mi.trace = m.trace ++ new
    ∧ loadCalls new = (List.range i).map (fun j => (m.modules arr j).moduleName)
    ∧ ∀ j ∈ entriesTouched arr new, j < i

/-- The outcome of `loadModules`, started on the machine `m`, when entry `k` stops it:
the returned status `s` and the machine `mk` it leaves. -/
structure StoppedAt (env : Env) (m : Machine) (arr k : Nat) (s : WAPI_RSOLVER_STATUS)
    (mk : Machine) : Prop where
  name_eq : ∀ a j, (mk.modules a j).moduleName = (m.modules a j).moduleName
  flag_eq : ∀ a j, (mk.modules a j).invalidName = (m.modules a j).invalidName
  rest_eq : ∀ a j, a ≠ arr ∨ k < j → mk.modules a j = m.modules a j
  done_eq : ∀ j, j < k →
    (mk.modules arr j).hLib = handleForEntry env m arr j ∧ handleForEntry env m arr j ≠ 0
  flagged : (m.modules arr k).invalidName = true →
    s = WAPI_RSOLVER_STATUS.ERROR_INVALID_LIB_NAME
    ∧ (mk.modules arr k).hLib = (m.modules arr k).hLib
    ∧ ∃ new, mk.trace = m.trace ++ new
      ∧ loadCalls new = (List.range k).map (fun j => (m.modules arr j).moduleName)
      ∧ ∀ j ∈ entriesTouched arr new, j ≤ k
  failed : (m.modules arr k).invalidName = false →
    s = WAPI_RSOLVER_STATUS.ERROR_LOAD_LIB
    ∧ (mk.modules arr k).hLib = 0
    ∧ ∃ new, mk.trace = m.trace ++ new
      ∧ loadCalls new = (List.range (k + 1)).map (fun j => (m.modules arr j).moduleName)
      ∧ ∀ j ∈ entriesTouched arr new, j ≤ k

/-- The machine on which `init` calls `loadModules`: the walk found the non-null handle
`h` and left the trace `t`, and both export lookups have stored their results. -/
def gatesPassed (m : Machine) (h : Nat) (t : List Event) : Machine :=
  { m with
    hNtdll := h
    pLdrLoadDll := exportLookup m.mem h (some STR_LDRLOADDLL)
    pLdrGetProcedureAddress := exportLookup m.mem h (some STR_LDRGETPROCEDUREADDRESS)
    trace := t ++ [Event.exportLookup (some STR_LDRLOADDLL)]
      ++ [Event.exportLookup (some STR_LDRGETPROCEDUREADDRESS)] }

/-- All five globals unset. -/
def AllUnset (m : Machine) : Prop :=
  m.hNtdll = 0 ∧ m.pLdrLoadDll = 0 ∧ m.pLdrGetProcedureAddress = 0
    ∧ m.arrModuleInf = 0 ∧ m.countModules = 0

/-- All five globals set. -/
def AllSet (m : Machine) : Prop :=
  m.hNtdll ≠ 0 ∧ m.pLdrLoadDll ≠ 0 ∧ m.pLdrGetProcedureAddress ≠ 0
    ∧ m.arrModuleInf ≠ 0 ∧ m.countModules ≠ 0

/-- States reachable from an all-unset state by `init` calls with any arguments; between
two calls the caller and the operating system may change the arrays and the memory. -/
inductive Reachable (env : Env) : Machine → Prop where
  | initial (m : Machine) : AllUnset m → Reachable env m
  | call (fuel : Nat) (m : Machine) (arr count : Nat) (r : WAPI_RSOLVER_STATUS × Machine) :
      Reachable env m → init env fuel m arr count = some r → Reachable env r.2
  | outside (m : Machine) (mem : Memory) (modules : Nat → Nat → MODULE_INF) (trace : List Event) :
      Reachable env m → Reachable env { m with mem := mem, modules := modules, trace := trace }

/-- States reachable from an all-unset state by `init` calls none of which returned
`SUCCESS`. -/
inductive NeverInitialised (env : Env) : Machine → Prop where
  | initial (m : Machine) : AllUnset m → NeverInitialised env m
  | call (fuel : Nat) (m : Machine) (arr count : Nat) (r : WAPI_RSOLVER_STATUS × Machine) :
      NeverInitialised env m → init env fuel m arr count = some r →
      r.1 ≠ WAPI_RSOLVER_STATUS.SUCCESS → NeverInitialised env r.2
  | outside (m : Machine) (mem : Memory) (modules : Nat → Nat → MODULE_INF) (trace : List Event) :
      NeverInitialised env m →
      NeverInitialised env { m with mem := mem, modules := modules, trace := trace }

/-! ## Sample data -/

/-- A 64-bit process: the module list holds `app.exe`, `ntdll.dll` and `kernel32.dll`
before the sentinel, and the image at `0x7FF00000` exports three names. -/
def sampleMemory : Memory where
  win64 := true
  readSegment := fun off => if off = 0x60 then 0x1000 else 0
  Ldr := fun p => if p = 0x1000 then 0x2000 else 0
  ModuleListLoadOrder_Flink := fun p => if p = 0x2000 then 0x3000 else 0
  BaseAddress := fun node =>
    if node = 0x3000 then 0x400000
    else if node = 0x3100 then 0x7FF00000
    else if node = 0x3200 then 0x7FE00000
    else 0
  BaseDllName_Buffer := fun node =>
    if node = 0x3000 then "app.exe"
    else if node = 0x3100 then "ntdll.dll"
    else if node = 0x3200 then "kernel32.dll"
    else ""
  InLoadOrderModuleList_Flink := fun node =>
    if node = 0x3000 then 0x3100
    else if node = 0x3100 then 0x3200
    else if node = 0x3200 then 0x2010
    else 0x3000
  e_magic := fun p => if p = 0x7FF00000 then 0x5A4D else 0
  e_lfanew := fun p => if p = 0x7FF00000 then 0xE8 else 0
  Signature := fun p => if p = 0x7FF000E8 then 0x4550 else 0
  Characteristics := fun p => if p = 0x7FF000E8 then 0x2022 else 0
  DataDirectory_VirtualAddress := fun p k => if p = 0x7FF000E8 ∧ k = 0 then 0x1000 else 0
  DataDirectory_Size := fun p k => if p = 0x7FF000E8 ∧ k = 0 then 0x200 else 0
  NumberOfFunctions := fun p => if p = 0x7FF01000 then 3 else 0
  NumberOfNames := fun p => if p = 0x7FF01000 then 3 else 0
  AddressOfFunctions := fun p => if p = 0x7FF01000 then 0x1100 else 0
  AddressOfNames := fun p => if p = 0x7FF01000 then 0x1200 else 0
  AddressOfNameOrdinals := fun p => if p = 0x7FF01000 then 0x1300 else 0
  dword := fun p =>
    if p = 0x7FF01200 then 0x1400
    else if p = 0x7FF01204 then 0x1420
    else if p = 0x7FF01208 then 0x1440
    else if p = 0x7FF01100 then 0x5000
    else if p = 0x7FF01104 then 0x6000
    else if p = 0x7FF01108 then 0x7000
    else 0
  word := fun p =>
    if p = 0x7FF01300 then 2
    else if p = 0x7FF01302 then 0
    else if p = 0x7FF01304 then 1
    else 0
  cstr := fun p =>
    if p = 0x7FF01400 then "LdrGetProcedureAddress"
    else if p = 0x7FF01420 then "LdrLoadDll"
    else if p = 0x7FF01440 then "NtClose"
    else ""

/-- A loader that knows `kernel32.dll` and `user32.dll` and fails for every other name. -/
def sampleEnv : Env where
  stringSize := fun s => 2 * s.length
  LdrLoadDll := fun _ name mem =>
    if name.Buffer = "kernel32.dll" then (0, 0x7FE00000, mem)
    else if name.Buffer = "user32.dll" then (0, 0x7FD00000, mem)
    else (0xC0000135, 0, mem)

/-- Caller arrays: at `0x9000` two loadable names; at `0xA000` a loadable name, a
flagged entry and a further loadable name; at `0xB000` a name the loader rejects,
followed by a flagged entry. -/
def sampleModules : Nat → Nat → MODULE_INF := fun arr i =>
  if arr = 0x9000 then
    if i = 0 then ⟨"kernel32.dll", false, 0⟩
    else if i = 1 then ⟨"user32.dll", false, 0⟩
    else ⟨"", false, 0⟩
  else if arr = 0xA000 then
    if i = 0 then ⟨"kernel32.dll", false, 0⟩
    else if i = 1 then ⟨"user32.dll", true, 0⟩
    else if i = 2 then ⟨"user32.dll", false, 0⟩
    else ⟨"", false, 0⟩
  else if arr = 0xB000 then
    if i = 1 then ⟨"user32.dll", true, 0⟩
    else ⟨"missing.dll", false, 0⟩
  else ⟨"", false, 0⟩

/-- The state before any `init` call, in the sample process. -/
def sampleMachine : Machine where
  pLdrGetProcedureAddress := 0
  pLdrLoadDll := 0
  hNtdll := 0
  arrModuleInf := 0
  countModules := 0
  mem := sampleMemory
  modules := sampleModules
  trace := []


/-- The sample state once the walk and both export lookups of `init` have succeeded. -/
def sampleResolved : Machine :=
  { sampleMachine with
    hNtdll := 0x7FF00000
    pLdrLoadDll := 0x7FF05000
    pLdrGetProcedureAddress := 0x7FF07000 }

/-! ## The export table parser -/

/-- The name search returns null when no remaining declared name equals the requested one. -/
theorem searchExportNames_none (mem : Memory) (imageBase exportNames ordinals functions : Nat)
    (functionName : String) (remaining : Nat) :
    ∀ i : Nat,
      (∀ j, i ≤ j → j < i + remaining →
        mem.cstr (ptrAdd mem imageBase (mem.dword (ptrAdd mem exportNames (4 * j)))) ≠ functionName) →
      searchExportNames mem imageBase exportNames ordinals functions functionName remaining i = 0 := by
  induction remaining with
  | zero => intro i _; rfl
  | succ r ih =>
    intro i h
    have h0 := h i (Nat.le_refl i) (by omega)
    simp only [searchExportNames, compareString]
    rw [if_neg (by simpa using h0)]
    exact ih (i + 1) (fun j hj1 hj2 => h j (by omega) (by omega))

/-- The name search returns the entry point of the first remaining declared name that equals the requested one. -/
theorem searchExportNames_found (mem : Memory) (imageBase exportNames ordinals functions : Nat)
    (functionName : String) (remaining : Nat) :
    ∀ i k : Nat, i ≤ k → k < i + remaining →
      mem.cstr (ptrAdd mem imageBase (mem.dword (ptrAdd mem exportNames (4 * k)))) = functionName →
      (∀ j, i ≤ j → j < k →
        mem.cstr (ptrAdd mem imageBase (mem.dword (ptrAdd mem exportNames (4 * j)))) ≠ functionName) →
      searchExportNames mem imageBase exportNames ordinals functions functionName remaining i
        = ptrAdd mem imageBase
            (mem.dword (ptrAdd mem functions (4 * mem.word (ptrAdd mem ordinals (2 * k))))) := by
  induction remaining with
  | zero => intro i k h1 h2; omega
  | succ r ih =>
    intro i k hik hk hname hleast
    simp only [searchExportNames, compareString]
    by_cases hi : i = k
    · subst hi
      rw [if_pos (by simpa using hname)]
    · have h0 := hleast i (Nat.le_refl i) (by omega)
      rw [if_neg (by simpa using h0)]
      exact ih (i + 1) k (by omega) (by omega) hname (fun j hj1 hj2 => hleast j (by omega) hj2)

/-- When every header check passes, the lookup is the name search over the declared tables. -/
theorem exportLookup_eq_search (mem : Memory) (base : Nat) (name : String)
    (hdos : mem.e_magic base = IMAGE_DOS_SIGNATURE)
    (hnt : mem.Signature (ntHeadersOf mem base) = IMAGE_NT_SIGNATURE)
    (hdll : mem.Characteristics (ntHeadersOf mem base) &&& IMAGE_FILE_DLL ≠ 0)
    (hva : mem.DataDirectory_VirtualAddress (ntHeadersOf mem base) IMAGE_DIRECTORY_ENTRY_EXPORT ≠ 0)
    (hsz : mem.DataDirectory_Size (ntHeadersOf mem base) IMAGE_DIRECTORY_ENTRY_EXPORT ≠ 0)
    (hnf : mem.NumberOfFunctions (exportDirectoryOf mem base) ≠ 0)
    (hmap : ExportTablesMapped mem base) :
    exportLookup mem base (some name)
      = searchExportNames mem base (namesTableOf mem base) (ordinalsTableOf mem base)
          (functionsTableOf mem base) name (declaredCount mem base) 0 := by
  obtain ⟨h1, h2, h3, h4⟩ := hmap
  unfold namesTableOf at h2
  unfold ordinalsTableOf at h3
  unfold functionsTableOf at h4
  unfold exportDirectoryOf at h1 h2 h3 h4 hnf
  unfold ntHeadersOf at h1 h2 h3 h4 hnf hnt hdll hva hsz
  simp only [exportLookup, namesTableOf, ordinalsTableOf, functionsTableOf, declaredCount,
    exportDirectoryOf, ntHeadersOf]
  simp [hdos, hnt, hdll, hva, hsz, hnf, h1, h2, h3, h4]

/-- The lookup is null when no declared name equals the requested one, whatever the headers say. -/
theorem exportLookup_absent (mem : Memory) (base : Nat) (name : String)
    (h : ∀ i, i < declaredCount mem base → declaredName mem base i ≠ name) :
    exportLookup mem base (some name) = 0 := by
  have hs := searchExportNames_none mem base (namesTableOf mem base) (ordinalsTableOf mem base)
    (functionsTableOf mem base) name (declaredCount mem base) 0
    (fun j _ hj => h j (by omega))
  simp only [namesTableOf, ordinalsTableOf, functionsTableOf, declaredCount,
    exportDirectoryOf, ntHeadersOf] at hs
  simp only [exportLookup]
  split_ifs <;> first | rfl | exact hs

/-- A non-null base and header offsets that do not wrap give non-null table pointers. -/
theorem exportTablesMapped_of_no_wrap (mem : Memory) (base : Nat) (hbase : base ≠ 0)
    (hdir : base + mem.DataDirectory_VirtualAddress (ntHeadersOf mem base)
      IMAGE_DIRECTORY_ENTRY_EXPORT < ptrMod mem)
    (hnames : base + mem.AddressOfNames (exportDirectoryOf mem base) < ptrMod mem)
    (hords : base + mem.AddressOfNameOrdinals (exportDirectoryOf mem base) < ptrMod mem)
    (hfuns : base + mem.AddressOfFunctions (exportDirectoryOf mem base) < ptrMod mem) :
    ExportTablesMapped mem base := by
  refine ⟨?_, ?_, ?_, ?_⟩
  · show (base + _) % ptrMod mem ≠ 0
    rw [Nat.mod_eq_of_lt hdir]
    omega
  · show (base + _) % ptrMod mem ≠ 0
    rw [Nat.mod_eq_of_lt hnames]
    omega
  · show (base + _) % ptrMod mem ≠ 0
    rw [Nat.mod_eq_of_lt hords]
    omega
  · show (base + _) % ptrMod mem ≠ 0
    rw [Nat.mod_eq_of_lt hfuns]
    omega

/-- Claim C1.  For a mapped image at a non-null base whose headers pass every check
(DOS signature, NT signature, DLL characteristic, export data-directory address and size,
number of functions; being mapped, its export directory and three tables are at non-null
addresses), and a requested name equal to the declared name of index `i` and to none of
smaller index, `getFuncAddrFromNtdll` returns the non-null address
`base + functions[ordinals[i]]`, provided that sum does not wrap. -/
theorem getFuncAddrFromNtdll_declared_name (m : Machine) (name : String) (i : Nat)
    (hbase : m.hNtdll ≠ 0)
    (hdos : m.mem.e_magic m.hNtdll = IMAGE_DOS_SIGNATURE)
    (hnt : m.mem.Signature (ntHeadersOf m.mem m.hNtdll) = IMAGE_NT_SIGNATURE)
    (hdll : m.mem.Characteristics (ntHeadersOf m.mem m.hNtdll) &&& IMAGE_FILE_DLL ≠ 0)
    (hva : m.mem.DataDirectory_VirtualAddress (ntHeadersOf m.mem m.hNtdll)
      IMAGE_DIRECTORY_ENTRY_EXPORT ≠ 0)
    (hsz : m.mem.DataDirectory_Size (ntHeadersOf m.mem m.hNtdll)
      IMAGE_DIRECTORY_ENTRY_EXPORT ≠ 0)
    (hnf : m.mem.NumberOfFunctions (exportDirectoryOf m.mem m.hNtdll) ≠ 0)
    (hmap : ExportTablesMapped m.mem m.hNtdll)
    (hi : i < declaredCount m.mem m.hNtdll)
    (hname : declaredName m.mem m.hNtdll i = name)
    (hleast : ∀ j, j < i → declaredName m.mem m.hNtdll j ≠ name)
    (hsum : m.hNtdll + declaredOffset m.mem m.hNtdll i < ptrMod m.mem) :
    (getFuncAddrFromNtdll m (some name)).1 = m.hNtdll + declaredOffset m.mem m.hNtdll i
      ∧ (getFuncAddrFromNtdll m (some name)).1 ≠ 0 := by
  have hfound := searchExportNames_found m.mem m.hNtdll (namesTableOf m.mem m.hNtdll)
    (ordinalsTableOf m.mem m.hNtdll) (functionsTableOf m.mem m.hNtdll) name
    (declaredCount m.mem m.hNtdll) 0 i (Nat.zero_le i) (by omega) hname
    (fun j _ hj => hleast j hj)
  have heq : (getFuncAddrFromNtdll m (some name)).1
      = m.hNtdll + declaredOffset m.mem m.hNtdll i := by
    show exportLookup m.mem m.hNtdll (some name) = _
    rw [exportLookup_eq_search m.mem m.hNtdll name hdos hnt hdll hva hsz hnf hmap, hfound]
    show (m.hNtdll + declaredOffset m.mem m.hNtdll i) % ptrMod m.mem = _
    exact Nat.mod_eq_of_lt hsum
  refine ⟨heq, ?_⟩
  rw [heq]
  omega

/-- Witness for C1: in the sample image `LdrLoadDll` is the declared name of index 1. -/
theorem getFuncAddrFromNtdll_declared_name_witness :
    (getFuncAddrFromNtdll { sampleMachine with hNtdll := 0x7FF00000 } (some "LdrLoadDll")).1
        = 0x7FF00000 + declaredOffset sampleMemory 0x7FF00000 1
      ∧ (getFuncAddrFromNtdll { sampleMachine with hNtdll := 0x7FF00000 }
          (some "LdrLoadDll")).1 ≠ 0 :=
  getFuncAddrFromNtdll_declared_name { sampleMachine with hNtdll := 0x7FF00000 } "LdrLoadDll" 1
    (by decide) (by decide) (by decide) (by decide) (by decide) (by decide) (by decide)
    (exportTablesMapped_of_no_wrap sampleMemory 0x7FF00000 (by decide) (by decide) (by decide)
      (by decide) (by decide))
    (by decide) (by decide) (by decide) (by decide)

/-- Claim C2.  The result of `getFuncAddrFromNtdll` is null whenever the name is null,
the DOS or the NT signature is unrecognized, the image is not a library, the export
data-directory slot has a zero address or a zero size, the export directory declares
zero functions, or none of the first `NumberOfNames` declared names equals the
requested name (so also when `NumberOfNames` is zero). -/
theorem getFuncAddrFromNtdll_null (m : Machine) (functionName : Option String)
    (h : functionName = none
      ∨ m.mem.e_magic m.hNtdll ≠ IMAGE_DOS_SIGNATURE
      ∨ m.mem.Signature (ntHeadersOf m.mem m.hNtdll) ≠ IMAGE_NT_SIGNATURE
      ∨ m.mem.Characteristics (ntHeadersOf m.mem m.hNtdll) &&& IMAGE_FILE_DLL = 0
      ∨ m.mem.DataDirectory_VirtualAddress (ntHeadersOf m.mem m.hNtdll)
          IMAGE_DIRECTORY_ENTRY_EXPORT = 0
      ∨ m.mem.DataDirectory_Size (ntHeadersOf m.mem m.hNtdll)
          IMAGE_DIRECTORY_ENTRY_EXPORT = 0
      ∨ m.mem.NumberOfFunctions (exportDirectoryOf m.mem m.hNtdll) = 0
      ∨ (∀ name, functionName = some name →
          ∀ i, i < declaredCount m.mem m.hNtdll → declaredName m.mem m.hNtdll i ≠ name)) :
    (getFuncAddrFromNtdll m functionName).1 = 0 := by
  show exportLookup m.mem m.hNtdll functionName = 0
  cases functionName with
  | none => rfl
  | some name =>
    rcases h with h | h | h | h | h | h | h | h
    · cases h
    · simp [exportLookup, h]
    · unfold ntHeadersOf at h
      simp [exportLookup, h]
    · unfold ntHeadersOf at h
      simp [exportLookup, h]
    · unfold ntHeadersOf at h
      simp [exportLookup, h]
    · unfold ntHeadersOf at h
      simp [exportLookup, h]
    · unfold exportDirectoryOf ntHeadersOf at h
      simp [exportLookup, h]
    · exact exportLookup_absent m.mem m.hNtdll name (h name rfl)

/-- Witness for C2: the sample image declares no name `NtOpenFile`. -/
theorem getFuncAddrFromNtdll_null_witness :
    (getFuncAddrFromNtdll { sampleMachine with hNtdll := 0x7FF00000 } (some "NtOpenFile")).1 = 0 :=
  getFuncAddrFromNtdll_null { sampleMachine with hNtdll := 0x7FF00000 } (some "NtOpenFile")
    (Or.inr (Or.inr (Or.inr (Or.inr (Or.inr (Or.inr (Or.inr
      (fun name hname => by cases hname; decide))))))))

/-! ## The process module walker -/

/-- The walk over a chain that ends in a sentinel: result, names examined and links followed. -/
theorem walkModuleList_spec (mem : Memory) (sentinel : Nat) (hs : mem.BaseAddress sentinel = 0) :
    ∀ (nodes : List Nat) (fuel first : Nat) (trace : List Event),
      IsForwardChain mem first nodes sentinel →
      (∀ a ∈ nodes, mem.BaseAddress a ≠ 0) →
      nodes.length < fuel →
      ∃ new, walkModuleList mem fuel first trace
          = some (((nodes.find? (isNtdllNode mem)).map mem.BaseAddress).getD 0, trace ++ new)
        ∧ namesExamined new
            = nodes.take ((nodes.takeWhile (fun a => !isNtdllNode mem a)).length + 1)
        ∧ linksFollowed new = nodes.takeWhile (fun a => !isNtdllNode mem a) := by
  intro nodes
  induction nodes with
  | nil =>
    intro fuel first trace hchain _ hfuel
    cases fuel with
    | zero => simp at hfuel
    | succ f =>
      have hfirst : first = sentinel := hchain
      subst hfirst
      refine ⟨[Event.nodeBaseAddress first], ?_, ?_, ?_⟩
      · simp [walkModuleList, hs]
      · simp [namesExamined]
      · simp [linksFollowed]
  | cons a rest ih =>
    intro fuel first trace hchain hbase hfuel
    cases fuel with
    | zero => simp at hfuel
    | succ f =>
      obtain ⟨hfirst, hrest⟩ := hchain
      subst hfirst
      have hb : mem.BaseAddress first ≠ 0 := hbase first (List.mem_cons_self _ _)
      by_cases hname : mem.BaseDllName_Buffer first = "ntdll.dll"
      · refine ⟨[Event.nodeBaseAddress first, Event.nodeBaseDllName first], ?_, ?_, ?_⟩
        · simp [walkModuleList, hb, compareString, STR_NTDLL, hname, isNtdllNode]
        · simp [namesExamined, isNtdllNode, hname]
        · simp [linksFollowed, isNtdllNode, hname]
      · obtain ⟨new, hwalk, hnames, hlinks⟩ := ih f (mem.InLoadOrderModuleList_Flink first)
          (trace ++ [Event.nodeBaseAddress first] ++ [Event.nodeBaseDllName first]
            ++ [Event.nodeFlink first])
          hrest (fun b hb => hbase b (List.mem_cons_of_mem _ hb))
          (by simp at hfuel; omega)
        refine ⟨[Event.nodeBaseAddress first, Event.nodeBaseDllName first,
          Event.nodeFlink first] ++ new, ?_, ?_, ?_⟩
        · simp only [walkModuleList, compareString, STR_NTDLL]
          rw [if_neg hb, if_neg (by simpa using hname), hwalk]
          simp [isNtdllNode, hname]
        · have : namesExamined ([Event.nodeBaseAddress first, Event.nodeBaseDllName first,
              Event.nodeFlink first] ++ new) = first :: namesExamined new := by
            simp [namesExamined]
          rw [this, hnames]
          simp [isNtdllNode, hname]
        · have : linksFollowed ([Event.nodeBaseAddress first, Event.nodeBaseDllName first,
              Event.nodeFlink first] ++ new) = first :: linksFollowed new := by
            simp [linksFollowed]
          rw [this, hlinks]
          simp [isNtdllNode, hname]

/-- Claim C9.  With a null environment-block pointer `getHandleNtDll` returns zero without
touching the list.  On a list of finitely many entries with non-null base address followed
by a sentinel with null base address the walk terminates (any fuel above the number of
entries suffices): it returns the base address of the first entry named `ntdll.dll`, zero
when there is none, and the names it examines and the links it follows belong to entries
before the sentinel only, in list order, never to the sentinel or anything after it. -/
theorem getHandleNtDll_walk (m : Machine) :
    (m.mem.readSegment (PEB_OFFSET m.mem) = 0 →
      ∀ fuel, getHandleNtDll fuel m
        = some (0, { m with trace := m.trace ++ [Event.moduleWalk] }))
    ∧ (∀ (nodes : List Nat) (sentinel : Nat),
        m.mem.readSegment (PEB_OFFSET m.mem) ≠ 0 →
        LoadedModuleList m.mem (firstNode m.mem) nodes sentinel →
        ∀ fuel, nodes.length < fuel →
          ∃ new, getHandleNtDll fuel m
              = some (((nodes.find? (isNtdllNode m.mem)).map m.mem.BaseAddress).getD 0,
                  { m with trace := m.trace ++ new })
            ∧ namesExamined new
                = nodes.take ((nodes.takeWhile (fun a => !isNtdllNode m.mem a)).length + 1)
            ∧ linksFollowed new = nodes.takeWhile (fun a => !isNtdllNode m.mem a)
            ∧ sentinel ∉ namesExamined new
            ∧ sentinel ∉ linksFollowed new) := by
  constructor
  · intro hpeb fuel
    simp [getHandleNtDll, hpeb]
  · intro nodes sentinel hpeb hlist fuel hfuel
    obtain ⟨hchain, hbase, hs⟩ := hlist
    obtain ⟨new, hwalk, hnames, hlinks⟩ := walkModuleList_spec m.mem sentinel hs nodes fuel
      (firstNode m.mem) (m.trace ++ [Event.moduleWalk]) hchain hbase hfuel
    have hnot : sentinel ∉ nodes := fun hmem => hbase sentinel hmem hs
    refine ⟨[Event.moduleWalk] ++ new, ?_, ?_, ?_, ?_, ?_⟩
    · unfold firstNode at hwalk
      simp only [getHandleNtDll]
      rw [if_pos hpeb, hwalk]
      simp
    · have : namesExamined ([Event.moduleWalk] ++ new) = namesExamined new := by
        simp [namesExamined]
      rw [this, hnames]
    · have : linksFollowed ([Event.moduleWalk] ++ new) = linksFollowed new := by
        simp [linksFollowed]
      rw [this, hlinks]
    · have : namesExamined ([Event.moduleWalk] ++ new) = namesExamined new := by
        simp [namesExamined]
      rw [this, hnames]
      exact fun hmem => hnot (List.mem_of_mem_take hmem)
    · have : linksFollowed ([Event.moduleWalk] ++ new) = linksFollowed new := by
        simp [linksFollowed]
      rw [this, hlinks]
      exact fun hmem => hnot ((List.takeWhile_sublist _).subset hmem)

/-- Witness for C9: the sample process (three entries, `ntdll.dll` second) and the same
process with a null environment-block pointer. -/
theorem getHandleNtDll_walk_witness :
    getHandleNtDll 0 { sampleMachine with mem := { sampleMemory with readSegment := fun _ => 0 } }
        = some (0, { sampleMachine with
            mem := { sampleMemory with readSegment := fun _ => 0 }
            trace := [Event.moduleWalk] })
    ∧ ∃ new, getHandleNtDll 4 sampleMachine
          = some (0x7FF00000, { sampleMachine with trace := new })
        ∧ namesExamined new = [0x3000, 0x3100]
        ∧ linksFollowed new = [0x3000]
        ∧ 0x2010 ∉ namesExamined new
        ∧ 0x2010 ∉ linksFollowed new := by
  refine ⟨(getHandleNtDll_walk _).1 (by decide) 0, ?_⟩
  obtain ⟨new, h1, h2, h3, h4, h5⟩ := (getHandleNtDll_walk sampleMachine).2
    [0x3000, 0x3100, 0x3200] 0x2010 (by decide)
    ⟨⟨by decide, by decide, by decide, by unfold IsForwardChain; decide⟩, by decide, by decide⟩
    4 (by decide)
  exact ⟨new, h1, h2, h3, h4, h5⟩

/-! ## Loading the module set -/

/-- The machine `loadLibrary` leaves differs from the one it got in memory and trace only. -/
theorem loadLibrary_snd (env : Env) (m : Machine) (name : String) :
    (loadLibrary env m (some name)).2
      = { m with
          mem := (loadLibrary env m (some name)).2.mem
          trace := m.trace ++ [Event.ldrLoadDll name] } := by
  simp only [loadLibrary]
  split_ifs <;> rfl

/-- The handle and the memory `loadLibrary` produces depend on the loader pointer and the memory only. -/
theorem loadLibrary_congr (env : Env) (m m' : Machine) (name : String)
    (hldr : m.pLdrLoadDll = m'.pLdrLoadDll) (hmem : m.mem = m'.mem) :
    (loadLibrary env m (some name)).1 = (loadLibrary env m' (some name)).1
      ∧ (loadLibrary env m (some name)).2.mem = (loadLibrary env m' (some name)).2.mem := by
  simp only [loadLibrary, hldr, hmem]
  split_ifs <;> exact ⟨rfl, rfl⟩

/-- Loader calls of a concatenated trace. -/
theorem loadCalls_append (t1 t2 : List Event) :
    loadCalls (t1 ++ t2) = loadCalls t1 ++ loadCalls t2 := by
  simp [loadCalls, List.filterMap_append]

/-- Entries touched by a concatenated trace. -/
theorem entriesTouched_append (arr : Nat) (t1 t2 : List Event) :
    entriesTouched arr (t1 ++ t2) = entriesTouched arr t1 ++ entriesTouched arr t2 := by
  simp [entriesTouched, List.filterMap_append]

/-- The loop invariant holds on entry. -/
theorem loadedUpTo_start (env : Env) (m : Machine) (arr : Nat) : LoadedUpTo env m arr 0 m where
  mem_eq := rfl
  ldr_eq := rfl
  name_eq := fun _ _ => rfl
  flag_eq := fun _ _ => rfl
  rest_eq := fun _ _ _ => rfl
  done_eq := fun j hj => absurd hj (Nat.not_lt_zero j)
  valid_eq := fun j hj => absurd hj (Nat.not_lt_zero j)
  trace_eq := ⟨[], by simp, by simp [loadCalls], by simp [entriesTouched]⟩

/-- Under the invariant, `loadLibrary` on entry `i` returns the handle and memory of the specification. -/
theorem loadLibrary_at_entry (env : Env) (m : Machine) (arr i : Nat) (mi : Machine)
    (hinv : LoadedUpTo env m arr i mi) (t : List Event) :
    (loadLibrary env { mi with trace := t } (some (m.modules arr i).moduleName)).1
        = handleForEntry env m arr i
      ∧ (loadLibrary env { mi with trace := t } (some (m.modules arr i).moduleName)).2.mem
        = memoryAtEntry env m arr (i + 1) := by
  have h := loadLibrary_congr env { mi with trace := t }
    { m with mem := memoryAtEntry env m arr i } (m.modules arr i).moduleName
    hinv.ldr_eq hinv.mem_eq
  exact ⟨h.1, h.2⟩

/-- One iteration of the `loadModules` loop. -/
theorem loadModulesLoop_succ (env : Env) (arr r i : Nat) (mi : Machine) :
    loadModulesLoop env arr (r + 1) i mi
      = if (mi.modules arr i).invalidName = true then
          (WAPI_RSOLVER_STATUS.ERROR_INVALID_LIB_NAME,
            { mi with trace := mi.trace ++ [Event.entryRead arr i] })
        else if (loadLibrary env { mi with trace := mi.trace ++ [Event.entryRead arr i] }
            (some (mi.modules arr i).moduleName)).1 = 0 then
          (WAPI_RSOLVER_STATUS.ERROR_LOAD_LIB, afterEntry env arr i mi)
        else loadModulesLoop env arr r (i + 1) (afterEntry env arr i mi) := by
  simp only [loadModulesLoop, afterEntry, writeHLib]
  simp

/-- The machine after one completed iteration, field by field. -/
theorem afterEntry_eq (env : Env) (arr i : Nat) (mi : Machine) :
    afterEntry env arr i mi
      = { mi with
          mem := (loadLibrary env { mi with trace := mi.trace ++ [Event.entryRead arr i] }
            (some (mi.modules arr i).moduleName)).2.mem
          modules := fun a j =>
            if a = arr ∧ j = i then
              { mi.modules a j with
                hLib := (loadLibrary env { mi with trace := mi.trace ++ [Event.entryRead arr i] }
                  (some (mi.modules arr i).moduleName)).1 }
            else mi.modules a j
          trace := mi.trace ++ [Event.entryRead arr i]
            ++ [Event.ldrLoadDll (mi.modules arr i).moduleName] ++ [Event.entryWrite arr i] } := by
  unfold afterEntry writeHLib
  rw [loadLibrary_snd]

/-- Under the invariant no entry before `i` stops the loop. -/
theorem loadedUpTo_not_stops (env : Env) (m : Machine) (arr i : Nat) (mi : Machine)
    (hinv : LoadedUpTo env m arr i mi) : ∀ j, j < i → ¬ StopsAt env m arr j := by
  intro j hj hstop
  rcases hstop with h | h
  · rw [hinv.valid_eq j hj] at h
    cases h
  · exact (hinv.done_eq j hj).2 h

/-- The invariant is kept by an iteration on an unflagged entry that loads. -/
theorem loadedUpTo_step (env : Env) (m : Machine) (arr i : Nat) (mi : Machine)
    (hinv : LoadedUpTo env m arr i mi)
    (hvalid : (m.modules arr i).invalidName = false)
    (hload : handleForEntry env m arr i ≠ 0) :
    LoadedUpTo env m arr (i + 1) (afterEntry env arr i mi) := by
  have hname : (mi.modules arr i).moduleName = (m.modules arr i).moduleName := hinv.name_eq arr i
  have hlib := loadLibrary_at_entry env m arr i mi hinv (mi.trace ++ [Event.entryRead arr i])
  rw [← hname] at hlib
  obtain ⟨new, htrace, hcalls, htouched⟩ := hinv.trace_eq
  rw [afterEntry_eq, hlib.1, hlib.2]
  refine
    { mem_eq := rfl
      ldr_eq := hinv.ldr_eq
      name_eq := ?_
      flag_eq := ?_
      rest_eq := ?_
      done_eq := ?_
      valid_eq := ?_
      trace_eq := ?_ }
  · intro a j
    show (if a = arr ∧ j = i then _ else _ : MODULE_INF).moduleName = _
    split_ifs
    · exact hinv.name_eq a j
    · exact hinv.name_eq a j
  · intro a j
    show (if a = arr ∧ j = i then _ else _ : MODULE_INF).invalidName = _
    split_ifs
    · exact hinv.flag_eq a j
    · exact hinv.flag_eq a j
  · intro a j h
    show (if a = arr ∧ j = i then _ else _ : MODULE_INF) = _
    rw [if_neg (by omega)]
    exact hinv.rest_eq a j (by omega)
  · intro j hj
    show (if arr = arr ∧ j = i then _ else _ : MODULE_INF).hLib = _ ∧ _
    by_cases hji : j = i
    · subst hji
      rw [if_pos ⟨rfl, rfl⟩]
      exact ⟨rfl, hload⟩
    · rw [if_neg (by omega)]
      exact hinv.done_eq j (by omega)
  · intro j hj
    by_cases hji : j = i
    · subst hji
      exact hvalid
    · exact hinv.valid_eq j (by omega)
  · refine ⟨new ++ [Event.entryRead arr i] ++ [Event.ldrLoadDll (mi.modules arr i).moduleName]
      ++ [Event.entryWrite arr i], ?_, ?_, ?_⟩
    · show mi.trace ++ _ ++ _ ++ _ = _
      rw [htrace]
      simp
    · simp only [loadCalls_append, hcalls, List.range_succ, List.map_append]
      simp [loadCalls, hname]
    · intro j hj
      simp only [entriesTouched_append, List.mem_append] at hj
      rcases hj with ((hj | hj) | hj) | hj
      · have := htouched j hj
        omega
      · simp [entriesTouched] at hj
        omega
      · simp [entriesTouched] at hj
      · simp [entriesTouched] at hj
        omega

/-- The outcome of an iteration on a flagged entry. -/
theorem stoppedAt_flagged (env : Env) (m : Machine) (arr i : Nat) (mi : Machine)
    (hinv : LoadedUpTo env m arr i mi)
    (hflag : (m.modules arr i).invalidName = true) :
    StoppedAt env m arr i WAPI_RSOLVER_STATUS.ERROR_INVALID_LIB_NAME
      { mi with trace := mi.trace ++ [Event.entryRead arr i] } := by
  obtain ⟨new, htrace, hcalls, htouched⟩ := hinv.trace_eq
  refine
    { name_eq := hinv.name_eq
      flag_eq := hinv.flag_eq
      rest_eq := fun a j h => hinv.rest_eq a j (by omega)
      done_eq := hinv.done_eq
      flagged := fun _ => ⟨rfl, ?_, new ++ [Event.entryRead arr i], ?_, ?_, ?_⟩
      failed := fun h => by rw [hflag] at h; cases h }
  · exact congrArg MODULE_INF.hLib (hinv.rest_eq arr i (Or.inr (Nat.le_refl i)))
  · show mi.trace ++ _ = _
    rw [htrace]
    simp
  · simp only [loadCalls_append, hcalls]
    simp [loadCalls]
  · intro j hj
    simp only [entriesTouched_append, List.mem_append] at hj
    rcases hj with hj | hj
    · have := htouched j hj
      omega
    · simp [entriesTouched] at hj
      omega

/-- The outcome of an iteration on an unflagged entry that fails to load. -/
theorem stoppedAt_failed (env : Env) (m : Machine) (arr i : Nat) (mi : Machine)
    (hinv : LoadedUpTo env m arr i mi)
    (hvalid : (m.modules arr i).invalidName = false)
    (hload : handleForEntry env m arr i = 0) :
    StoppedAt env m arr i WAPI_RSOLVER_STATUS.ERROR_LOAD_LIB (afterEntry env arr i mi) := by
  have hname : (mi.modules arr i).moduleName = (m.modules arr i).moduleName := hinv.name_eq arr i
  have hlib := loadLibrary_at_entry env m arr i mi hinv (mi.trace ++ [Event.entryRead arr i])
  rw [← hname] at hlib
  obtain ⟨new, htrace, hcalls, htouched⟩ := hinv.trace_eq
  rw [afterEntry_eq, hlib.1, hlib.2]
  refine
    { name_eq := ?_
      flag_eq := ?_
      rest_eq := ?_
      done_eq := ?_
      flagged := fun h => by rw [hvalid] at h; cases h
      failed := fun _ => ⟨rfl, ?_, new ++ [Event.entryRead arr i]
        ++ [Event.ldrLoadDll (mi.modules arr i).moduleName] ++ [Event.entryWrite arr i],
        ?_, ?_, ?_⟩ }
  · intro a j
    show (if a = arr ∧ j = i then _ else _ : MODULE_INF).moduleName = _
    split_ifs
    · exact hinv.name_eq a j
    · exact hinv.name_eq a j
  · intro a j
    show (if a = arr ∧ j = i then _ else _ : MODULE_INF).invalidName = _
    split_ifs
    · exact hinv.flag_eq a j
    · exact hinv.flag_eq a j
  · intro a j h
    show (if a = arr ∧ j = i then _ else _ : MODULE_INF) = _
    rw [if_neg (by omega)]
    exact hinv.rest_eq a j (by omega)
  · intro j hj
    show (if arr = arr ∧ j = i then _ else _ : MODULE_INF).hLib = _ ∧ _
    rw [if_neg (by omega)]
    exact hinv.done_eq j hj
  · show (if arr = arr ∧ i = i then _ else _ : MODULE_INF).hLib = 0
    rw [if_pos ⟨rfl, rfl⟩]
    exact hload
  · show mi.trace ++ _ ++ _ ++ _ = _
    rw [htrace]
    simp
  · simp only [loadCalls_append, hcalls, List.range_succ, List.map_append]
    simp [loadCalls, hname]
  · intro j hj
    simp only [entriesTouched_append, List.mem_append] at hj
    rcases hj with ((hj | hj) | hj) | hj
    · have := htouched j hj
      omega
    · simp [entriesTouched] at hj
      omega
    · simp [entriesTouched] at hj
    · simp [entriesTouched] at hj
      omega

/-- The loop either stops at the least stopping index or handles every remaining entry. -/
theorem loadModulesLoop_spec (env : Env) (m : Machine) (arr : Nat) :
    ∀ (remaining i : Nat) (mi : Machine), LoadedUpTo env m arr i mi →
      (∃ k, i ≤ k ∧ k < i + remaining ∧ StopsAt env m arr k
          ∧ (∀ j, j < k → ¬ StopsAt env m arr j)
          ∧ StoppedAt env m arr k (loadModulesLoop env arr remaining i mi).1
              (loadModulesLoop env arr remaining i mi).2)
      ∨ ((∀ j, j < i + remaining → ¬ StopsAt env m arr j)
          ∧ (loadModulesLoop env arr remaining i mi).1 = WAPI_RSOLVER_STATUS.SUCCESS
          ∧ LoadedUpTo env m arr (i + remaining) (loadModulesLoop env arr remaining i mi).2) := by
  intro remaining
  induction remaining with
  | zero =>
    intro i mi hinv
    exact Or.inr ⟨loadedUpTo_not_stops env m arr i mi hinv, rfl, hinv⟩
  | succ r ih =>
    intro i mi hinv
    have hname : (mi.modules arr i).moduleName = (m.modules arr i).moduleName :=
      hinv.name_eq arr i
    have hflag : (mi.modules arr i).invalidName = (m.modules arr i).invalidName :=
      hinv.flag_eq arr i
    have hlib := loadLibrary_at_entry env m arr i mi hinv (mi.trace ++ [Event.entryRead arr i])
    rw [← hname] at hlib
    rw [loadModulesLoop_succ, hflag, hlib.1]
    by_cases hbad : (m.modules arr i).invalidName = true
    · rw [if_pos hbad]
      exact Or.inl ⟨i, Nat.le_refl i, by omega, Or.inl hbad,
        loadedUpTo_not_stops env m arr i mi hinv, stoppedAt_flagged env m arr i mi hinv hbad⟩
    · have hvalid : (m.modules arr i).invalidName = false := by
        simpa using hbad
      rw [if_neg hbad]
      by_cases hzero : handleForEntry env m arr i = 0
      · rw [if_pos hzero]
        exact Or.inl ⟨i, Nat.le_refl i, by omega, Or.inr hzero,
          loadedUpTo_not_stops env m arr i mi hinv,
          stoppedAt_failed env m arr i mi hinv hvalid hzero⟩
      · rw [if_neg hzero]
        have hnext := loadedUpTo_step env m arr i mi hinv hvalid hzero
        rcases ih (i + 1) (afterEntry env arr i mi) hnext with
          ⟨k, hk1, hk2, hstop, hleast, hpost⟩ | ⟨hnone, hstatus, hpost⟩
        · exact Or.inl ⟨k, by omega, by omega, hstop, hleast, hpost⟩
        · refine Or.inr ⟨fun j hj => hnone j (by omega), hstatus, ?_⟩
          have hidx : i + (r + 1) = i + 1 + r := by omega
          rw [hidx]
          exact hpost

/-- The outcome of `loadModules` at the least stopping index. -/
theorem loadModules_stoppedAt (env : Env) (m : Machine) (arr count k : Nat)
    (hk : k < count) (hstop : StopsAt env m arr k)
    (hleast : ∀ j, j < k → ¬ StopsAt env m arr j) :
    StoppedAt env m arr k (loadModules env m arr count).1 (loadModules env m arr count).2 := by
  have hspec := loadModulesLoop_spec env m arr count 0 m (loadedUpTo_start env m arr)
  simp only [Nat.zero_add] at hspec
  rcases hspec with ⟨k', _, hk', hstop', hleast', hpost⟩ | ⟨hnone, _, _⟩
  · have hkk : k' = k := by
      rcases Nat.lt_trichotomy k' k with h | h | h
      · exact absurd hstop' (hleast k' h)
      · exact h
      · exact absurd hstop (hleast' k h)
    subst hkk
    exact hpost
  · exact absurd hstop (hnone k hk)

/-- The outcome of `loadModules` when no entry stops it. -/
theorem loadModules_all_loaded (env : Env) (m : Machine) (arr count : Nat)
    (hnone : ∀ j, j < count → ¬ StopsAt env m arr j) :
    (loadModules env m arr count).1 = WAPI_RSOLVER_STATUS.SUCCESS
      ∧ LoadedUpTo env m arr count (loadModules env m arr count).2 := by
  have hspec := loadModulesLoop_spec env m arr count 0 m (loadedUpTo_start env m arr)
  simp only [Nat.zero_add] at hspec
  rcases hspec with ⟨k', _, hk', hstop', _, _⟩ | ⟨_, hstatus, hpost⟩
  · exact absurd hstop' (hnone k' hk')
  · exact ⟨hstatus, hpost⟩

/-- Claim C4.  `loadModules` handles the entries in index order and stops at the least
index `k < count` whose `invalidName` flag is set or for whose name `loadLibrary` returns
a zero handle.  Every entry before `k` holds the non-zero handle `loadLibrary` returned
for it, every entry after `k` is unchanged and untouched.  When the flag of entry `k` is
set the status is `ERROR_INVALID_LIB_NAME`, the handle field of entry `k` is as it was and
the loader was called for the entries before `k` only; otherwise the status is
`ERROR_LOAD_LIB`, the handle field of entry `k` is zero and the loader was called for the
entries up to `k` only.  With no such `k` the status is `SUCCESS` and every entry holds
the non-zero handle `loadLibrary` returned for it. -/
theorem loadModules_fail_fast (env : Env) (m : Machine) (arr count : Nat) :
    (∀ k, k < count → StopsAt env m arr k → (∀ j, j < k → ¬ StopsAt env m arr j) →
        StoppedAt env m arr k (loadModules env m arr count).1 (loadModules env m arr count).2)
    ∧ ((∀ j, j < count → ¬ StopsAt env m arr j) →
        (loadModules env m arr count).1 = WAPI_RSOLVER_STATUS.SUCCESS
        ∧ ∀ j, j < count →
            ((loadModules env m arr count).2.modules arr j).hLib = handleForEntry env m arr j
            ∧ handleForEntry env m arr j ≠ 0) :=
  ⟨fun k hk hstop hleast => loadModules_stoppedAt env m arr count k hk hstop hleast,
    fun hnone =>
      ⟨(loadModules_all_loaded env m arr count hnone).1,
        fun j hj => (loadModules_all_loaded env m arr count hnone).2.done_eq j hj⟩⟩

/-- Witness for C4: the sample array at `0xA000` stops at its flagged entry 1, the sample
array at `0x9000` loads completely. -/
theorem loadModules_fail_fast_witness :
    StoppedAt sampleEnv sampleResolved 0xA000 1
        (loadModules sampleEnv sampleResolved 0xA000 3).1
        (loadModules sampleEnv sampleResolved 0xA000 3).2
      ∧ (loadModules sampleEnv sampleResolved 0x9000 2).1 = WAPI_RSOLVER_STATUS.SUCCESS
      ∧ ∀ j, j < 2 →
          ((loadModules sampleEnv sampleResolved 0x9000 2).2.modules 0x9000 j).hLib
              = handleForEntry sampleEnv sampleResolved 0x9000 j
            ∧ handleForEntry sampleEnv sampleResolved 0x9000 j ≠ 0 :=
  ⟨(loadModules_fail_fast sampleEnv sampleResolved 0xA000 3).1 1 (by decide)
      (Or.inl (by decide))
      (fun j hj => by
        have hj0 : j = 0 := by omega
        subst hj0
        unfold StopsAt
        decide),
    (loadModules_fail_fast sampleEnv sampleResolved 0x9000 2).2
      (fun j hj => by
        have hj01 : j = 0 ∨ j = 1 := by omega
        rcases hj01 with h | h <;> subst h <;> unfold StopsAt <;> decide)⟩

/-! ## Lookup in the committed view -/

/-- The lookup loop returns zero when no remaining entry has the name. -/
theorem getHandleModuleByNameLoop_none (dllName : String) :
    ∀ (remaining i : Nat) (m : Machine),
      (∀ j, i ≤ j → j < i + remaining → (m.modules m.arrModuleInf j).moduleName ≠ dllName) →
      (getHandleModuleByNameLoop dllName remaining i m).1 = 0 := by
  intro remaining
  induction remaining with
  | zero => intro i m _; rfl
  | succ r ih =>
    intro i m h
    have h0 := h i (Nat.le_refl i) (by omega)
    simp only [getHandleModuleByNameLoop, compareString]
    rw [if_neg (by simpa using h0)]
    exact ih (i + 1) _ (fun j hj1 hj2 => h j (by omega) (by omega))

/-- The lookup loop returns the handle of the first remaining entry with the name. -/
theorem getHandleModuleByNameLoop_found (dllName : String) :
    ∀ (remaining i k : Nat) (m : Machine), i ≤ k → k < i + remaining →
      (m.modules m.arrModuleInf k).moduleName = dllName →
      (∀ j, i ≤ j → j < k → (m.modules m.arrModuleInf j).moduleName ≠ dllName) →
      (getHandleModuleByNameLoop dllName remaining i m).1 = (m.modules m.arrModuleInf k).hLib := by
  intro remaining
  induction remaining with
  | zero => intro i k m h1 h2; omega
  | succ r ih =>
    intro i k m hik hk hname hleast
    simp only [getHandleModuleByNameLoop, compareString]
    by_cases hi : i = k
    · subst hi
      rw [if_pos (by simpa using hname)]
    · have h0 := hleast i (Nat.le_refl i) (by omega)
      rw [if_neg (by simpa using h0)]
      exact ih (i + 1) k _ (by omega) (by omega) hname
        (fun j hj1 hj2 => hleast j (by omega) hj2)

/-- The lookup loop only appends entry reads to the trace. -/
theorem getHandleModuleByNameLoop_frame (dllName : String) :
    ∀ (remaining i : Nat) (m : Machine),
      ∃ reads, (getHandleModuleByNameLoop dllName remaining i m).2
          = { m with trace := m.trace ++ reads }
        ∧ ∀ e ∈ reads, ∃ j, e = Event.entryRead m.arrModuleInf j := by
  intro remaining
  induction remaining with
  | zero =>
    intro i m
    exact ⟨[], by simp [getHandleModuleByNameLoop], by simp⟩
  | succ r ih =>
    intro i m
    simp only [getHandleModuleByNameLoop]
    split_ifs
    · exact ⟨[Event.entryRead m.arrModuleInf i], rfl, by simp⟩
    · obtain ⟨reads, heq, hreads⟩ := ih (i + 1)
        { m with trace := m.trace ++ [Event.entryRead m.arrModuleInf i] }
      refine ⟨Event.entryRead m.arrModuleInf i :: reads, ?_, ?_⟩
      · rw [heq]
        simp
      · intro e he
        rcases List.mem_cons.mp he with h | h
        · exact ⟨i, h⟩
        · exact hreads e h

/-- The lookup returns the handle of the least-index match, or zero without a match. -/
theorem getHandleModuleByName_first_match (m : Machine) (dllName : String) :
    (∃ i, i < m.countModules ∧ (m.modules m.arrModuleInf i).moduleName = dllName
        ∧ (∀ j, j < i → (m.modules m.arrModuleInf j).moduleName ≠ dllName)
        ∧ (getHandleModuleByName m dllName).1 = (m.modules m.arrModuleInf i).hLib)
    ∨ ((∀ i, i < m.countModules → (m.modules m.arrModuleInf i).moduleName ≠ dllName)
        ∧ (getHandleModuleByName m dllName).1 = 0) := by
  by_cases hex : ∃ i, i < m.countModules ∧ (m.modules m.arrModuleInf i).moduleName = dllName
  · left
    have hfind := Nat.find_spec hex
    refine ⟨Nat.find hex, hfind.1, hfind.2, ?_, ?_⟩
    · intro j hj hname
      exact Nat.find_min hex hj ⟨by omega, hname⟩
    · exact getHandleModuleByNameLoop_found dllName m.countModules 0 (Nat.find hex) m
        (Nat.zero_le _) (by omega) hfind.2
        (fun j _ hj hname => Nat.find_min hex hj ⟨by omega, hname⟩)
  · right
    have hnone : ∀ i, i < m.countModules → (m.modules m.arrModuleInf i).moduleName ≠ dllName :=
      fun i hi hname => hex ⟨i, hi, hname⟩
    exact ⟨hnone, getHandleModuleByNameLoop_none dllName m.countModules 0 m
      (fun j _ hj => hnone j (by omega))⟩

/-- The handle the lookup returns does not depend on the trace. -/
theorem getHandleModuleByName_trace_irrelevant (m : Machine) (t : List Event) (dllName : String) :
    (getHandleModuleByName { m with trace := t } dllName).1 = (getHandleModuleByName m dllName).1 := by
  rcases getHandleModuleByName_first_match m dllName with ⟨i, hi, hname, hleast, hres⟩ | ⟨hnone, hres⟩
  · rw [hres]
    exact getHandleModuleByNameLoop_found dllName m.countModules 0 i { m with trace := t }
      (Nat.zero_le _) (by omega) hname (fun j _ hj => hleast j hj)
  · rw [hres]
    exact getHandleModuleByNameLoop_none dllName m.countModules 0 { m with trace := t }
      (fun j _ hj => hnone j (by omega))

/-! ## The bootstrap sequence -/

/-- The walk changes the trace only. -/
theorem getHandleNtDll_frame (fuel : Nat) (m : Machine) (r : Nat × Machine)
    (h : getHandleNtDll fuel m = some r) : r.2 = { m with trace := r.2.trace } := by
  simp only [getHandleNtDll] at h
  split_ifs at h
  · cases hw : walkModuleList m.mem fuel
        (m.mem.ModuleListLoadOrder_Flink (m.mem.Ldr (m.mem.readSegment (PEB_OFFSET m.mem))))
        (m.trace ++ [Event.moduleWalk]) with
    | none => rw [hw] at h; cases h
    | some w =>
      rw [hw] at h
      cases h
      rfl
  · cases h
    rfl

/-- The `loadModules` loop leaves the five globals alone. -/
theorem loadModulesLoop_globals (env : Env) (arr : Nat) :
    ∀ (remaining i : Nat) (m : Machine),
      (loadModulesLoop env arr remaining i m).2.hNtdll = m.hNtdll
      ∧ (loadModulesLoop env arr remaining i m).2.pLdrLoadDll = m.pLdrLoadDll
      ∧ (loadModulesLoop env arr remaining i m).2.pLdrGetProcedureAddress
          = m.pLdrGetProcedureAddress
      ∧ (loadModulesLoop env arr remaining i m).2.arrModuleInf = m.arrModuleInf
      ∧ (loadModulesLoop env arr remaining i m).2.countModules = m.countModules := by
  intro remaining
  induction remaining with
  | zero => intro i m; exact ⟨rfl, rfl, rfl, rfl, rfl⟩
  | succ r ih =>
    intro i m
    rw [loadModulesLoop_succ]
    split_ifs
    · exact ⟨rfl, rfl, rfl, rfl, rfl⟩
    · rw [afterEntry_eq]
      exact ⟨rfl, rfl, rfl, rfl, rfl⟩
    · have h := ih (i + 1) (afterEntry env arr i m)
      rw [afterEntry_eq] at h
      rw [afterEntry_eq]
      exact h

/-- The result of `init` once the parameter gate is passed and the walk has returned. -/
theorem init_after_walk (env : Env) (fuel : Nat) (m : Machine) (arr count : Nat)
    (harr : arr ≠ 0) (hcount : count ≠ 0) (r : Nat × Machine)
    (hwalk : getHandleNtDll fuel m = some r) :
    init env fuel m arr count
      = some (
        if r.1 = 0 then
          (WAPI_RSOLVER_STATUS.ERROR_NTDLL_HANDLE, { m with hNtdll := r.1, trace := r.2.trace })
        else if exportLookup m.mem r.1 (some STR_LDRLOADDLL) = 0 then
          (WAPI_RSOLVER_STATUS.ERROR_FIND_LDRLOADDLL,
            { m with
              hNtdll := r.1
              pLdrLoadDll := exportLookup m.mem r.1 (some STR_LDRLOADDLL)
              trace := r.2.trace ++ [Event.exportLookup (some STR_LDRLOADDLL)] })
        else if exportLookup m.mem r.1 (some STR_LDRGETPROCEDUREADDRESS) = 0 then
          (WAPI_RSOLVER_STATUS.ERROR_FIND_LDRGETPROCEDUREADDRESS, gatesPassed m r.1 r.2.trace)
        else if (loadModules env (gatesPassed m r.1 r.2.trace) arr count).1
            = WAPI_RSOLVER_STATUS.SUCCESS then
          (WAPI_RSOLVER_STATUS.SUCCESS,
            { (loadModules env (gatesPassed m r.1 r.2.trace) arr count).2 with
              arrModuleInf := arr
              countModules := count })
        else loadModules env (gatesPassed m r.1 r.2.trace) arr count) := by
  have hframe := getHandleNtDll_frame fuel m r hwalk
  simp only [init, hwalk, getFuncAddrFromNtdll, WAPI_SUCCESS]
  rw [if_neg (by simp [harr, hcount])]
  rw [hframe]
  simp only [gatesPassed]
  by_cases h0 : r.1 = 0
  · simp [h0]
  · by_cases h1 : exportLookup m.mem r.1 (some STR_LDRLOADDLL) = 0
    · simp [h0, h1]
    · by_cases h2 : exportLookup m.mem r.1 (some STR_LDRGETPROCEDUREADDRESS) = 0
      · simp [h0, h1, h2]
      · simp only [h0, h1, h2, if_false, decide_eq_true_eq]
        split_ifs with h3
        · simpa using h3
        · rfl

/-- The parameter gate of `init`. -/
theorem init_invalid_param (env : Env) (fuel : Nat) (m : Machine) (arr count : Nat)
    (h : arr = 0 ∨ count = 0) :
    init env fuel m arr count = some (WAPI_RSOLVER_STATUS.ERROR_INVALID_PARAM, m) := by
  simp only [init]
  rw [if_pos h]

/-- Past the parameter gate `init` runs out of fuel when the walk does. -/
theorem init_walk_none (env : Env) (fuel : Nat) (m : Machine) (arr count : Nat)
    (harr : arr ≠ 0) (hcount : count ≠ 0) (hwalk : getHandleNtDll fuel m = none) :
    init env fuel m arr count = none := by
  simp only [init, hwalk]
  rw [if_neg (by simp [harr, hcount])]

/-- A `SUCCESS` of `loadModules` means every entry was loaded. -/
theorem loadModules_success (env : Env) (g : Machine) (arr count : Nat)
    (h : (loadModules env g arr count).1 = WAPI_RSOLVER_STATUS.SUCCESS) :
    LoadedUpTo env g arr count (loadModules env g arr count).2 := by
  have hspec := loadModulesLoop_spec env g arr count 0 g (loadedUpTo_start env g arr)
  simp only [Nat.zero_add] at hspec
  rcases hspec with ⟨k, _, _, _, _, hpost⟩ | ⟨_, _, hpost⟩
  · exfalso
    cases hflag : (g.modules arr k).invalidName with
    | true =>
      have := (hpost.flagged hflag).1
      rw [show (loadModulesLoop env arr count 0 g).1 = WAPI_RSOLVER_STATUS.SUCCESS from h] at this
      cases this
    | false =>
      have := (hpost.failed hflag).1
      rw [show (loadModulesLoop env arr count 0 g).1 = WAPI_RSOLVER_STATUS.SUCCESS from h] at this
      cases this
  · exact hpost

/-- What a returning `init` call leaves: on `SUCCESS` the machine after `loadModules` with
the view committed, otherwise the previous view. -/
theorem init_view (env : Env) (fuel : Nat) (m : Machine) (arr count : Nat)
    (res : WAPI_RSOLVER_STATUS × Machine) (hinit : init env fuel m arr count = some res) :
    (res.1 = WAPI_RSOLVER_STATUS.SUCCESS ∧ arr ≠ 0 ∧ count ≠ 0
      ∧ ∃ r, getHandleNtDll fuel m = some r ∧ r.1 ≠ 0
        ∧ exportLookup m.mem r.1 (some STR_LDRLOADDLL) ≠ 0
        ∧ exportLookup m.mem r.1 (some STR_LDRGETPROCEDUREADDRESS) ≠ 0
        ∧ (loadModules env (gatesPassed m r.1 r.2.trace) arr count).1
            = WAPI_RSOLVER_STATUS.SUCCESS
        ∧ res.2 = { (loadModules env (gatesPassed m r.1 r.2.trace) arr count).2 with
            arrModuleInf := arr
            countModules := count })
    ∨ (res.1 ≠ WAPI_RSOLVER_STATUS.SUCCESS ∧ res.2.arrModuleInf = m.arrModuleInf
        ∧ res.2.countModules = m.countModules) := by
  by_cases hparam : arr = 0 ∨ count = 0
  · rw [init_invalid_param env fuel m arr count hparam] at hinit
    cases hinit
    exact Or.inr ⟨(fun h => by cases h), rfl, rfl⟩
  · have harr : arr ≠ 0 := fun h => hparam (Or.inl h)
    have hcount : count ≠ 0 := fun h => hparam (Or.inr h)
    cases hwalk : getHandleNtDll fuel m with
    | none =>
      rw [init_walk_none env fuel m arr count harr hcount hwalk] at hinit
      cases hinit
    | some r =>
      rw [init_after_walk env fuel m arr count harr hcount r hwalk] at hinit
      have hres := (Option.some.inj hinit).symm
      by_cases h0 : r.1 = 0
      · rw [if_pos h0] at hres
        rw [hres]
        exact Or.inr ⟨(fun h => by cases h), rfl, rfl⟩
      · rw [if_neg h0] at hres
        by_cases h1 : exportLookup m.mem r.1 (some STR_LDRLOADDLL) = 0
        · rw [if_pos h1] at hres
          rw [hres]
          exact Or.inr ⟨(fun h => by cases h), rfl, rfl⟩
        · rw [if_neg h1] at hres
          by_cases h2 : exportLookup m.mem r.1 (some STR_LDRGETPROCEDUREADDRESS) = 0
          · rw [if_pos h2] at hres
            rw [hres]
            exact Or.inr ⟨(fun h => by cases h), rfl, rfl⟩
          · rw [if_neg h2] at hres
            by_cases h3 : (loadModules env (gatesPassed m r.1 r.2.trace) arr count).1
                = WAPI_RSOLVER_STATUS.SUCCESS
            · rw [if_pos h3] at hres
              rw [hres]
              exact Or.inl ⟨rfl, harr, hcount, r, rfl, h0, h1, h2, h3, rfl⟩
            · rw [if_neg h3] at hres
              rw [hres]
              have hg := loadModulesLoop_globals env arr count 0 (gatesPassed m r.1 r.2.trace)
              exact Or.inr ⟨h3, hg.2.2.2.1, hg.2.2.2.2⟩

/-- Claim C3.  The status `init` returns is decided by the first failing gate, in the
order: parameters, module walk, lookup of `LdrLoadDll`, lookup of `LdrGetProcedureAddress`,
`loadModules`; `init` returns exactly when the walk does.  Hence it returns `SUCCESS` if
and only if the four gates pass and `loadModules` returns `SUCCESS`. -/
theorem init_status (env : Env) (fuel : Nat) (m : Machine) (arr count : Nat) :
    ((init env fuel m arr count).map Prod.fst
      = if arr = 0 ∨ count = 0 then some WAPI_RSOLVER_STATUS.ERROR_INVALID_PARAM
        else (getHandleNtDll fuel m).map (fun r =>
          if r.1 = 0 then WAPI_RSOLVER_STATUS.ERROR_NTDLL_HANDLE
          else if (getFuncAddrFromNtdll { m with hNtdll := r.1 } (some STR_LDRLOADDLL)).1 = 0 then
            WAPI_RSOLVER_STATUS.ERROR_FIND_LDRLOADDLL
          else if (getFuncAddrFromNtdll { m with hNtdll := r.1 }
              (some STR_LDRGETPROCEDUREADDRESS)).1 = 0 then
            WAPI_RSOLVER_STATUS.ERROR_FIND_LDRGETPROCEDUREADDRESS
          else (loadModules env (gatesPassed m r.1 r.2.trace) arr count).1))
    ∧ ((init env fuel m arr count).map Prod.fst = some WAPI_RSOLVER_STATUS.SUCCESS ↔
        arr ≠ 0 ∧ count ≠ 0
        ∧ ∃ r, getHandleNtDll fuel m = some r ∧ r.1 ≠ 0
          ∧ (getFuncAddrFromNtdll { m with hNtdll := r.1 } (some STR_LDRLOADDLL)).1 ≠ 0
          ∧ (getFuncAddrFromNtdll { m with hNtdll := r.1 }
              (some STR_LDRGETPROCEDUREADDRESS)).1 ≠ 0
          ∧ (loadModules env (gatesPassed m r.1 r.2.trace) arr count).1
              = WAPI_RSOLVER_STATUS.SUCCESS) := by
  have hfirst : (init env fuel m arr count).map Prod.fst
      = if arr = 0 ∨ count = 0 then some WAPI_RSOLVER_STATUS.ERROR_INVALID_PARAM
        else (getHandleNtDll fuel m).map (fun r =>
          if r.1 = 0 then WAPI_RSOLVER_STATUS.ERROR_NTDLL_HANDLE
          else if exportLookup m.mem r.1 (some STR_LDRLOADDLL) = 0 then
            WAPI_RSOLVER_STATUS.ERROR_FIND_LDRLOADDLL
          else if exportLookup m.mem r.1 (some STR_LDRGETPROCEDUREADDRESS) = 0 then
            WAPI_RSOLVER_STATUS.ERROR_FIND_LDRGETPROCEDUREADDRESS
          else (loadModules env (gatesPassed m r.1 r.2.trace) arr count).1) := by
    by_cases hparam : arr = 0 ∨ count = 0
    · rw [init_invalid_param env fuel m arr count hparam, if_pos hparam]
      rfl
    · have harr : arr ≠ 0 := fun h => hparam (Or.inl h)
      have hcount : count ≠ 0 := fun h => hparam (Or.inr h)
      rw [if_neg hparam]
      cases hwalk : getHandleNtDll fuel m with
      | none =>
        rw [init_walk_none env fuel m arr count harr hcount hwalk]
        rfl
      | some r =>
        rw [init_after_walk env fuel m arr count harr hcount r hwalk]
        simp only [Option.map_some']
        congr 1
        split_ifs <;> first | rfl | (symm; assumption)
  refine ⟨hfirst, ?_⟩
  show _ ↔ arr ≠ 0 ∧ count ≠ 0 ∧ ∃ r, getHandleNtDll fuel m = some r ∧ r.1 ≠ 0
    ∧ exportLookup m.mem r.1 (some STR_LDRLOADDLL) ≠ 0
    ∧ exportLookup m.mem r.1 (some STR_LDRGETPROCEDUREADDRESS) ≠ 0
    ∧ (loadModules env (gatesPassed m r.1 r.2.trace) arr count).1 = WAPI_RSOLVER_STATUS.SUCCESS
  rw [hfirst]
  constructor
  · intro h
    by_cases hparam : arr = 0 ∨ count = 0
    · rw [if_pos hparam] at h
      cases h
    · rw [if_neg hparam] at h
      refine ⟨fun h => hparam (Or.inl h), fun h => hparam (Or.inr h), ?_⟩
      cases hwalk : getHandleNtDll fuel m with
      | none => rw [hwalk] at h; cases h
      | some r =>
        rw [hwalk] at h
        simp only [Option.map_some', Option.some.injEq] at h
        split_ifs at h with h0 h1 h2
        exact ⟨r, rfl, h0, h1, h2, h⟩
  · rintro ⟨harr, hcount, r, hwalk, h0, h1, h2, h3⟩
    rw [if_neg (by simp [harr, hcount]), hwalk]
    simp only [Option.map_some']
    rw [if_neg h0, if_neg h1, if_neg h2, h3]

/-- Claim C7.  Called with a null array or a zero count, `init` returns
`ERROR_INVALID_PARAM` and leaves the machine as it was: the five globals, the memory, every
array entry and the trace (which records each module walk, export lookup, loader call and
entry access) are unchanged.  No fuel is needed, the walk is not entered. -/
theorem init_invalid_param_no_work (env : Env) (fuel : Nat) (m : Machine) (arr count : Nat)
    (h : arr = 0 ∨ count = 0) :
    init env fuel m arr count = some (WAPI_RSOLVER_STATUS.ERROR_INVALID_PARAM, m) :=
  init_invalid_param env fuel m arr count h

/-- Witness for C7: zero count on the sample array, with no fuel at all. -/
theorem init_invalid_param_no_work_witness :
    init sampleEnv 0 sampleMachine 0x9000 0
      = some (WAPI_RSOLVER_STATUS.ERROR_INVALID_PARAM, sampleMachine) :=
  init_invalid_param_no_work sampleEnv 0 sampleMachine 0x9000 0 (Or.inr rfl)

/-- With a zero committed count the lookup returns zero. -/
theorem getHandleModuleByName_empty (m : Machine) (dllName : String)
    (h : m.countModules = 0) : (getHandleModuleByName m dllName).1 = 0 := by
  simp [getHandleModuleByName, h, getHandleModuleByNameLoop]

/-- Without a successful `init` the committed view is unset. -/
theorem neverInitialised_view (env : Env) (m : Machine) (h : NeverInitialised env m) :
    m.arrModuleInf = 0 ∧ m.countModules = 0 := by
  induction h with
  | initial m hm => exact ⟨hm.2.2.2.1, hm.2.2.2.2⟩
  | call fuel m arr count r _ hinit hfail ih =>
    rcases init_view env fuel m arr count r hinit with hs | hf
    · exact absurd hs.1 hfail
    · exact ⟨hf.2.1.trans ih.1, hf.2.2.trans ih.2⟩
  | outside m mem modules trace _ ih => exact ih

/-- A successful `init` leaves all five globals set. -/
theorem init_success_allSet (env : Env) (fuel : Nat) (m : Machine) (arr count : Nat)
    (m' : Machine)
    (hinit : init env fuel m arr count = some (WAPI_RSOLVER_STATUS.SUCCESS, m')) :
    AllSet m' := by
  rcases init_view env fuel m arr count _ hinit with hs | hf
  · obtain ⟨_, harr, hcount, r, _, h0, h1, h2, _, hres⟩ := hs
    have hg := loadModulesLoop_globals env arr count 0 (gatesPassed m r.1 r.2.trace)
    have hres' : m' = { (loadModules env (gatesPassed m r.1 r.2.trace) arr count).2 with
        arrModuleInf := arr
        countModules := count } := hres
    subst hres'
    exact ⟨hg.1 ▸ h0, hg.2.1 ▸ h1, hg.2.2.1 ▸ h2, harr, hcount⟩
  · exact absurd rfl hf.1

/-- In every reachable state the pointer and the count of the view are set together. -/
theorem reachable_view (env : Env) (m : Machine) (h : Reachable env m) :
    (m.arrModuleInf = 0 ∧ m.countModules = 0) ∨ (m.arrModuleInf ≠ 0 ∧ m.countModules ≠ 0) := by
  induction h with
  | initial m hm => exact Or.inl ⟨hm.2.2.2.1, hm.2.2.2.2⟩
  | call fuel m arr count r _ hinit ih =>
    rcases init_view env fuel m arr count r hinit with hs | hf
    · obtain ⟨_, harr, hcount, _, _, _, _, _, _, hres⟩ := hs
      rw [hres]
      exact Or.inr ⟨harr, hcount⟩
    · rw [hf.2.1, hf.2.2]
      exact ih
  | outside m mem modules trace _ ih => exact ih

/-- Claim C5.  After an `init(arr, n)` call that returns `SUCCESS`, every entry `arr[i]`
with `i < n` has a non-zero handle field, the committed view is `(arr, n)`, and for every
`i < n` the lookup of the name of `arr[i]` returns the handle field of the first entry of
`arr` with that name, which is non-zero. -/
theorem init_success_committed (env : Env) (fuel : Nat) (m : Machine) (arr n : Nat)
    (m' : Machine)
    (hinit : init env fuel m arr n = some (WAPI_RSOLVER_STATUS.SUCCESS, m')) :
    (∀ i, i < n → (m'.modules arr i).hLib ≠ 0)
      ∧ m'.arrModuleInf = arr ∧ m'.countModules = n
      ∧ ∀ i, i < n → ∃ j, j ≤ i
          ∧ (m'.modules arr j).moduleName = (m'.modules arr i).moduleName
          ∧ (∀ j', j' < j → (m'.modules arr j').moduleName ≠ (m'.modules arr i).moduleName)
          ∧ (getHandleModuleByName m' (m'.modules arr i).moduleName).1 = (m'.modules arr j).hLib
          ∧ (getHandleModuleByName m' (m'.modules arr i).moduleName).1 ≠ 0 := by
  rcases init_view env fuel m arr n _ hinit with hs | hf
  · obtain ⟨_, _, _, r, _, _, _, _, hstatus, hres⟩ := hs
    have hloaded := loadModules_success env (gatesPassed m r.1 r.2.trace) arr n hstatus
    have hres' : m' = { (loadModules env (gatesPassed m r.1 r.2.trace) arr n).2 with
        arrModuleInf := arr
        countModules := n } := hres
    have hhandles : ∀ i, i < n → (m'.modules arr i).hLib ≠ 0 := by
      intro i hi
      have hd := hloaded.done_eq i hi
      rw [hres']
      show ((loadModules env (gatesPassed m r.1 r.2.trace) arr n).2.modules arr i).hLib ≠ 0
      rw [hd.1]
      exact hd.2
    have harr : m'.arrModuleInf = arr := by rw [hres']
    have hcount : m'.countModules = n := by rw [hres']
    refine ⟨hhandles, harr, hcount, ?_⟩
    intro i hi
    rcases getHandleModuleByName_first_match m' (m'.modules arr i).moduleName with
      ⟨j, hj, hname, hleast, hval⟩ | ⟨hnone, _⟩
    · rw [harr] at hname hleast hval
      rw [hcount] at hj
      refine ⟨j, ?_, hname, hleast, hval, ?_⟩
      · by_contra hlt
        exact hleast i (by omega) rfl
      · rw [hval]
        exact hhandles j hj
    · rw [harr, hcount] at hnone
      exact absurd rfl (hnone i hi)
  · exact absurd rfl hf.1

/-- Witness for C5: `init` on the sample array at `0x9000` succeeds. -/
theorem init_success_committed_witness :
    ∃ m', init sampleEnv 4 sampleMachine 0x9000 2 = some (WAPI_RSOLVER_STATUS.SUCCESS, m')
      ∧ (∀ i, i < 2 → (m'.modules 0x9000 i).hLib ≠ 0)
      ∧ m'.arrModuleInf = 0x9000 ∧ m'.countModules = 2
      ∧ ∀ i, i < 2 →
          (getHandleModuleByName m' (m'.modules 0x9000 i).moduleName).1 ≠ 0 := by
  have hstatus : (init sampleEnv 4 sampleMachine 0x9000 2).map Prod.fst
      = some WAPI_RSOLVER_STATUS.SUCCESS := by decide
  cases hinit : init sampleEnv 4 sampleMachine 0x9000 2 with
  | none => rw [hinit] at hstatus; cases hstatus
  | some res =>
    rw [hinit] at hstatus
    obtain ⟨s, m'⟩ := res
    have hs : s = WAPI_RSOLVER_STATUS.SUCCESS := Option.some.inj hstatus
    subst hs
    have h := init_success_committed sampleEnv 4 sampleMachine 0x9000 2 m' hinit
    refine ⟨m', rfl, h.1, h.2.1, h.2.2.1, fun i hi => ?_⟩
    obtain ⟨_, _, _, _, _, hne⟩ := h.2.2.2 i hi
    exact hne

/-- Claim C8.  `getHandleModuleByName` returns the handle field of the entry of least
index below the committed count whose name equals the given name, and zero when no entry
matches; it returns zero whenever the committed count is zero, which is the case in every
state in which no `init` call has returned `SUCCESS`; it changes neither the globals, nor
the memory, nor any array entry (only entry reads are added to the trace), so that a
second call with the same name returns the same handle. -/
theorem getHandleModuleByName_pure_lookup (env : Env) (m : Machine) (dllName : String) :
    ((∃ i, i < m.countModules ∧ (m.modules m.arrModuleInf i).moduleName = dllName
          ∧ (∀ j, j < i → (m.modules m.arrModuleInf j).moduleName ≠ dllName)
          ∧ (getHandleModuleByName m dllName).1 = (m.modules m.arrModuleInf i).hLib)
      ∨ ((∀ i, i < m.countModules → (m.modules m.arrModuleInf i).moduleName ≠ dllName)
          ∧ (getHandleModuleByName m dllName).1 = 0))
    ∧ (m.countModules = 0 → (getHandleModuleByName m dllName).1 = 0)
    ∧ (NeverInitialised env m → (getHandleModuleByName m dllName).1 = 0)
    ∧ (∃ reads, (getHandleModuleByName m dllName).2 = { m with trace := m.trace ++ reads }
        ∧ ∀ e ∈ reads, ∃ j, e = Event.entryRead m.arrModuleInf j)
    ∧ (getHandleModuleByName (getHandleModuleByName m dllName).2 dllName).1
        = (getHandleModuleByName m dllName).1 := by
  refine ⟨getHandleModuleByName_first_match m dllName,
    getHandleModuleByName_empty m dllName,
    fun h => getHandleModuleByName_empty m dllName (neverInitialised_view env m h).2,
    getHandleModuleByNameLoop_frame dllName m.countModules 0 m, ?_⟩
  obtain ⟨reads, heq, _⟩ := getHandleModuleByNameLoop_frame dllName m.countModules 0 m
  have heq' : (getHandleModuleByName m dllName).2 = { m with trace := m.trace ++ reads } := heq
  rw [heq']
  exact getHandleModuleByName_trace_irrelevant m (m.trace ++ reads) dllName

/-- Witness for C8: before any `init` call the lookup of `user32.dll` returns zero. -/
theorem getHandleModuleByName_pure_lookup_witness :
    (getHandleModuleByName sampleMachine "user32.dll").1 = 0 :=
  (getHandleModuleByName_pure_lookup sampleEnv sampleMachine "user32.dll").2.2.1
    (NeverInitialised.initial sampleMachine ⟨rfl, rfl, rfl, rfl, rfl⟩)

/-- The memory reached at an entry depends on the loader pointer, the memory and the arrays only. -/
theorem memoryAtEntry_congr (env : Env) (m m' : Machine) (arr : Nat)
    (hldr : m.pLdrLoadDll = m'.pLdrLoadDll) (hmem : m.mem = m'.mem)
    (hmod : m.modules = m'.modules) :
    ∀ j, memoryAtEntry env m arr j = memoryAtEntry env m' arr j := by
  intro j
  induction j with
  | zero => exact hmem
  | succ j ih =>
    simp only [memoryAtEntry]
    have hn : (m'.modules arr j).moduleName = (m.modules arr j).moduleName := by rw [hmod]
    rw [hn]
    exact (loadLibrary_congr env { m with mem := memoryAtEntry env m arr j }
      { m' with mem := memoryAtEntry env m' arr j } (m.modules arr j).moduleName hldr ih).2

/-- Whether an entry stops the loop depends on the loader pointer, the memory and the arrays only. -/
theorem stopsAt_congr (env : Env) (m m' : Machine) (arr j : Nat)
    (hldr : m.pLdrLoadDll = m'.pLdrLoadDll) (hmem : m.mem = m'.mem)
    (hmod : m.modules = m'.modules) :
    StopsAt env m arr j ↔ StopsAt env m' arr j := by
  have hmemj := memoryAtEntry_congr env m m' arr hldr hmem hmod j
  have hh : handleForEntry env m arr j = handleForEntry env m' arr j := by
    unfold handleForEntry
    have hn : (m'.modules arr j).moduleName = (m.modules arr j).moduleName := by rw [hmod]
    rw [hn]
    exact (loadLibrary_congr env { m with mem := memoryAtEntry env m arr j }
      { m' with mem := memoryAtEntry env m' arr j } (m.modules arr j).moduleName hldr hmemj).1
  unfold StopsAt
  rw [hh, hmod]

/-- Claim C6, refuted as stated.  A flagged entry behind an entry the loader rejects:
`init` returns `ERROR_LOAD_LIB`, not the invalid-name status.  And after a successful
`init` on the array at `0x9000`, a second `init` on the array at `0xA000`, whose entry 1
is flagged and named `user32.dll`, returns `ERROR_INVALID_LIB_NAME` while the lookup of
`user32.dll` still reports the handle committed by the first call. -/
theorem init_flagged_entry_counterexample :
    ((sampleMachine.modules 0xB000 1).invalidName = true
      ∧ (init sampleEnv 4 sampleMachine 0xB000 2).map Prod.fst
          = some WAPI_RSOLVER_STATUS.ERROR_LOAD_LIB)
    ∧ ((init sampleEnv 4 sampleMachine 0x9000 2).bind (fun r1 =>
          (init sampleEnv 4 r1.2 0xA000 3).map (fun r2 =>
            (r1.1, (r1.2.modules 0xA000 1).invalidName, (r1.2.modules 0xA000 1).moduleName,
              r2.1, (getHandleModuleByName r2.2 "user32.dll").1)))
        = some (WAPI_RSOLVER_STATUS.SUCCESS, true, "user32.dll",
            WAPI_RSOLVER_STATUS.ERROR_INVALID_LIB_NAME, 0x7FD00000)) := by
  decide

/-- Claim C6, amended.  Let `init(arr, count)` be called with `arr` non-null, and let
`k < count` be an index whose `invalidName` flag is set and which the call reaches: the
walk returns a non-null handle, both export lookups are non-null, and no entry before `k`
is flagged or gets a zero handle from `loadLibrary`.  Then `init` returns
`ERROR_INVALID_LIB_NAME` and leaves the committed view as it was before the call; so, when
the committed count was zero before the call, `getHandleModuleByName` afterwards returns
zero for every name, in particular for the names of entry `k` and of the entries after
it. -/
theorem init_flagged_entry (env : Env) (fuel : Nat) (m : Machine) (arr count k h : Nat)
    (harr : arr ≠ 0) (hk : k < count)
    (hflag : (m.modules arr k).invalidName = true)
    (hwalk : (getHandleNtDll fuel m).map Prod.fst = some h) (h0 : h ≠ 0)
    (h1 : (getFuncAddrFromNtdll { m with hNtdll := h } (some STR_LDRLOADDLL)).1 ≠ 0)
    (h2 : (getFuncAddrFromNtdll { m with hNtdll := h } (some STR_LDRGETPROCEDUREADDRESS)).1 ≠ 0)
    (hbefore : ∀ j, j < k → ¬ StopsAt env (gatesPassed m h []) arr j) :
    ∃ m', init env fuel m arr count = some (WAPI_RSOLVER_STATUS.ERROR_INVALID_LIB_NAME, m')
      ∧ m'.arrModuleInf = m.arrModuleInf ∧ m'.countModules = m.countModules
      ∧ (m.countModules = 0 →
          (∀ name, (getHandleModuleByName m' name).1 = 0)
          ∧ ∀ j, k ≤ j → j < count →
              (getHandleModuleByName m' (m'.modules arr j).moduleName).1 = 0) := by
  cases hw : getHandleNtDll fuel m with
  | none => rw [hw] at hwalk; cases hwalk
  | some r =>
    rw [hw] at hwalk
    have hr : r.1 = h := Option.some.inj hwalk
    subst hr
    have hcount : count ≠ 0 := by omega
    have h1' : exportLookup m.mem r.1 (some STR_LDRLOADDLL) ≠ 0 := h1
    have h2' : exportLookup m.mem r.1 (some STR_LDRGETPROCEDUREADDRESS) ≠ 0 := h2
    have hstop : StopsAt env (gatesPassed m r.1 r.2.trace) arr k := Or.inl hflag
    have hleast : ∀ j, j < k → ¬ StopsAt env (gatesPassed m r.1 r.2.trace) arr j :=
      fun j hj hs => hbefore j hj
        ((stopsAt_congr env (gatesPassed m r.1 r.2.trace) (gatesPassed m r.1 []) arr j
          rfl rfl rfl).mp hs)
    have hpost := loadModules_stoppedAt env (gatesPassed m r.1 r.2.trace) arr count k hk
      hstop hleast
    have hstatus := (hpost.flagged hflag).1
    have hinit : init env fuel m arr count
        = some (loadModules env (gatesPassed m r.1 r.2.trace) arr count) := by
      rw [init_after_walk env fuel m arr count harr hcount r hw, if_neg h0, if_neg h1',
        if_neg h2', if_neg (by rw [hstatus]; intro hc; cases hc)]
    have hg := loadModulesLoop_globals env arr count 0 (gatesPassed m r.1 r.2.trace)
    refine ⟨(loadModules env (gatesPassed m r.1 r.2.trace) arr count).2, ?_, hg.2.2.2.1,
      hg.2.2.2.2, ?_⟩
    · rw [hinit, ← hstatus]
    · intro hfresh
      have hzero :
          (loadModules env (gatesPassed m r.1 r.2.trace) arr count).2.countModules = 0 :=
        hg.2.2.2.2.trans hfresh
      exact ⟨fun name => getHandleModuleByName_empty _ name hzero,
        fun j _ _ => getHandleModuleByName_empty _ _ hzero⟩

/-- Witness for the amended C6: `init` on the sample array at `0xA000`, entry 1 flagged,
from the state before any `init` call. -/
theorem init_flagged_entry_witness :
    ∃ m', init sampleEnv 4 sampleMachine 0xA000 3
        = some (WAPI_RSOLVER_STATUS.ERROR_INVALID_LIB_NAME, m')
      ∧ m'.arrModuleInf = 0 ∧ m'.countModules = 0
      ∧ (sampleMachine.countModules = 0 →
          (∀ name, (getHandleModuleByName m' name).1 = 0)
          ∧ ∀ j, 1 ≤ j → j < 3 →
              (getHandleModuleByName m' (m'.modules 0xA000 j).moduleName).1 = 0) :=
  init_flagged_entry sampleEnv 4 sampleMachine 0xA000 3 1 0x7FF00000
    (by decide) (by decide) (by decide) (by decide) (by decide) (by decide) (by decide)
    (fun j hj => by
      have hj0 : j = 0 := by omega
      subst hj0
      unfold StopsAt
      decide)

/-- Claim C10, refuted as stated.  From the all-unset sample state, `init` on the array
at `0xA000` (entry 1 flagged) fails and leaves the handle of ntdll and both loader
pointers set while the array view stays unset: a reachable state that is neither
all-unset nor all-set. -/
theorem resolver_state_counterexample :
    AllUnset sampleMachine
    ∧ (init sampleEnv 4 sampleMachine 0xA000 3).map (fun r =>
          (r.1, r.2.hNtdll, r.2.pLdrLoadDll, r.2.pLdrGetProcedureAddress,
            r.2.arrModuleInf, r.2.countModules))
        = some (WAPI_RSOLVER_STATUS.ERROR_INVALID_LIB_NAME, 0x7FF00000, 0x7FF05000,
            0x7FF07000, 0, 0)
    ∧ ∃ m', Reachable sampleEnv m' ∧ ¬ (AllUnset m' ∨ AllSet m') := by
  have hcomp : (init sampleEnv 4 sampleMachine 0xA000 3).map (fun r =>
          (r.1, r.2.hNtdll, r.2.pLdrLoadDll, r.2.pLdrGetProcedureAddress,
            r.2.arrModuleInf, r.2.countModules))
        = some (WAPI_RSOLVER_STATUS.ERROR_INVALID_LIB_NAME, 0x7FF00000, 0x7FF05000,
            0x7FF07000, 0, 0) := by decide
  have hunset : AllUnset sampleMachine := ⟨rfl, rfl, rfl, rfl, rfl⟩
  refine ⟨hunset, hcomp, ?_⟩
  cases hinit : init sampleEnv 4 sampleMachine 0xA000 3 with
  | none => rw [hinit] at hcomp; cases hcomp
  | some r =>
    rw [hinit] at hcomp
    have hfields := Option.some.inj hcomp
    simp only [Prod.mk.injEq] at hfields
    obtain ⟨_, hn, _, _, ha, _⟩ := hfields
    refine ⟨r.2, Reachable.call 4 sampleMachine 0xA000 3 r
      (Reachable.initial sampleMachine hunset) hinit, ?_⟩
    rintro (hu | hs)
    · rw [hu.1] at hn
      cases hn
    · exact hs.2.2.2.1 ha

/-- Claim C10, amended.  In every state reachable from the all-unset state by `init` calls
the array view is either unset (null pointer, zero count) or set (non-null pointer,
non-zero count), and right after an `init` call that returns `SUCCESS` all five globals
are set. -/
theorem resolver_state_invariant (env : Env) :
    (∀ m, Reachable env m →
        (m.arrModuleInf = 0 ∧ m.countModules = 0) ∨ (m.arrModuleInf ≠ 0 ∧ m.countModules ≠ 0))
    ∧ (∀ fuel m arr count m',
        init env fuel m arr count = some (WAPI_RSOLVER_STATUS.SUCCESS, m') → AllSet m') :=
  ⟨fun m h => reachable_view env m h,
    fun fuel m arr count m' h => init_success_allSet env fuel m arr count m' h⟩

/-- Witness for the amended C10: the sample state, and the state after a successful
`init` on the sample array at `0x9000`. -/
theorem resolver_state_invariant_witness :
    ((sampleMachine.arrModuleInf = 0 ∧ sampleMachine.countModules = 0)
      ∨ (sampleMachine.arrModuleInf ≠ 0 ∧ sampleMachine.countModules ≠ 0))
    ∧ ∃ m', init sampleEnv 4 sampleMachine 0x9000 2 = some (WAPI_RSOLVER_STATUS.SUCCESS, m')
        ∧ AllSet m' := by
  refine ⟨(resolver_state_invariant sampleEnv).1 sampleMachine
    (Reachable.initial sampleMachine ⟨rfl, rfl, rfl, rfl, rfl⟩), ?_⟩
  have hstatus : (init sampleEnv 4 sampleMachine 0x9000 2).map Prod.fst
      = some WAPI_RSOLVER_STATUS.SUCCESS := by decide
  cases hinit : init sampleEnv 4 sampleMachine 0x9000 2 with
  | none => rw [hinit] at hstatus; cases hstatus
  | some res =>
    rw [hinit] at hstatus
    obtain ⟨s, m'⟩ := res
    have hs : s = WAPI_RSOLVER_STATUS.SUCCESS := Option.some.inj hstatus
    subst hs
    exact ⟨m', rfl, (resolver_state_invariant sampleEnv).2 4 sampleMachine 0x9000 2 m' hinit⟩

end WinAPIResolver
